import Mathlib

/-!
# GladSToNe G.729 decoder element: frame segmentation and decode dispatch

A shallow embedding of `src/gstg729dec.c` (functions `g729_decode` and
`gst_g729_dec_handle_frame`) together with theorems about it.

Conventions of the embedding.

* `guint` variables (`size`, `num_frames`, `i`) are natural numbers; every
  operation that can leave the 32-bit range is reduced modulo `GUINT_RANGE`.
* Pointers into a mapped buffer are offsets from the start of the mapping:
  `in_ptr` counts `guint8` elements, `out_ptr` counts `gint16` elements.
* The codec primitive, the output-buffer allocator and the downstream push are
  services of other libraries; they are parameters (`Env`).
* Every call of an external service is appended to a trace, so that the number,
  order and arguments of the calls can be stated.
-/

namespace G729

/-- Modelled from the spec: `G729_FRAME_BYTES` is defined in the header
`gstg729dec.h`, which is not among the sources; a voice frame is 10 bytes. -/
abbrev G729_FRAME_BYTES : Nat := 10

/-- Modelled from the spec: `G729_SID_BYTES` is defined in the header
`gstg729dec.h`, which is not among the sources; a SID frame is 2 bytes. -/
abbrev G729_SID_BYTES : Nat := 2

/-- Modelled from the spec: `G729_SILENCE_BYTES` is defined in the header
`gstg729dec.h`, which is not among the sources; an erasure frame is 0 bytes. -/
abbrev G729_SILENCE_BYTES : Nat := 0

/-- Modelled from the spec: `RAW_FRAME_BYTES` is defined in the header
`gstg729dec.h`, which is not among the sources; one decoded block is
160 samples of 2 bytes, 320 bytes, an `int` constant. -/
abbrev RAW_FRAME_BYTES : Nat := 320

/-- Number of values of a `guint` (32-bit unsigned): `2 ^ 32`. -/
abbrev GUINT_RANGE : Nat := 4294967296

/-- A byte of a mapped buffer (`guint8`); its value is never inspected here. -/
abbrev guint8 : Type := Nat

/-- The values of `GstFlowReturn` that can be told apart here. -/
inductive GstFlowReturn where
  | GST_FLOW_OK
  | GST_FLOW_NOT_LINKED
  | GST_FLOW_FLUSHING
  | GST_FLOW_EOS
  | GST_FLOW_NOT_NEGOTIATED
  | GST_FLOW_ERROR
  | GST_FLOW_NOT_SUPPORTED
  deriving DecidableEq, Repr

/-- The instance structure `GstG729Dec`, reduced to the two fields the source
file uses: `dec->vad` and `dec->dec` (the bcg729 channel context, of an
arbitrary type `Chan`). -/
structure GstG729Dec (Chan : Type) where
  vad : Int
  dec : Chan
  deriving DecidableEq, Repr

/-- One entry of the trace of a call.

* `allocate_output_buffer n`: `gst_audio_decoder_allocate_output_buffer` was
  asked for `n` bytes;
* `g729_decode p len q`: `g729_decode` was entered with `g729_data` at byte
  offset `p` of the input mapping, `g729_len = len`, and `pcm_data` at
  `gint16` offset `q` of the output mapping;
* `bcg729Decoder p bs len e s r`: the codec primitive was invoked with the
  bit stream at offset `p` (whose first `len` bytes are `bs`), length `len`
  and the flags frame-erasure `e`, SID `s`, RFC 3389 payload `r`;
* `finish_frame out`: the buffer `out` was handed to
  `gst_audio_decoder_finish_frame`. -/
inductive Event where
  | allocate_output_buffer (size : Nat)
  | g729_decode (g729_data : Nat) (g729_len : Nat) (pcm_data : Nat)
  | bcg729Decoder (g729_data : Nat) (bitStream : List guint8) (bitStreamLength : Nat)
      (frameErasureFlag : Bool) (SIDFrameFlag : Bool) (rfc3389PayloadFlag : Bool)
  | finish_frame (outbuf : List guint8)
  deriving DecidableEq, Repr

/-- The services the element calls.

* `bcg729Decoder ctx bitStream len erasure sid rfc3389` returns the channel
  context after the call and the bytes it stored at `signal`;
* `gst_audio_decoder_allocate_output_buffer n` returns the initial contents of
  the new buffer, or `none` for a `NULL` result;
* `gst_audio_decoder_finish_frame out` returns the flow result of pushing `out`. -/
structure Env (Chan : Type) where
  bcg729Decoder : Chan → List guint8 → Nat → Bool → Bool → Bool → Chan × List guint8
  gst_audio_decoder_allocate_output_buffer : Nat → Option (List guint8)
  gst_audio_decoder_finish_frame : List guint8 → GstFlowReturn

/-- What `g729_decode` can read and change: the element instance, the mapped
output buffer `omap`, and the trace. `overrun` records that some byte of a PCM
block was stored outside `omap`. -/
structure Session (Chan : Type) where
  dec : GstG729Dec Chan
  omap : List guint8
  overrun : Bool
  trace : List Event
  deriving DecidableEq, Repr

/-- The local variables of `gst_g729_dec_handle_frame` that the frame loop
updates: `in_ptr` (byte offset), `size` (a `guint`), `out_ptr` (`gint16`
offset). -/
structure Cursor where
  in_ptr : Nat
  size : Nat
  out_ptr : Nat
  deriving DecidableEq, Repr

/-- Store `block` at byte offset `off` of `mem`. Only the bytes that fall
inside `mem` are kept, so the length of `mem` never changes. -/
def poke (mem : List guint8) (off : Nat) (block : List guint8) : List guint8 :=
  mem.take off ++ block.take (mem.length - off) ++ mem.drop (off + block.length)

/-- One invocation `bcg729Decoder(dec->dec, g729_data, g729_len, e, s, r, pcm_data)`:
the primitive reads the `g729_len` bytes at `g729_data`, updates the channel
context and stores its PCM block at `pcm_data`. -/
def call_bcg729Decoder {Chan : Type} (env : Env Chan) (s : Session Chan)
    (imap : List guint8) (g729_data g729_len : Nat) (e sid r : Bool) (pcm_data : Nat) :
    Session Chan :=
  let bitStream := (imap.drop g729_data).take g729_len
  let res := env.bcg729Decoder s.dec.dec bitStream g729_len e sid r
  { dec := { s.dec with dec := res.1 }
    omap := poke s.omap (2 * pcm_data) res.2
    overrun := s.overrun || decide (s.omap.length < 2 * pcm_data + res.2.length)
    trace := s.trace ++ [Event.bcg729Decoder g729_data bitStream g729_len e sid r] }

/-- The function `g729_decode` (lines 153-171): a `switch` on `g729_len` with
the cases `G729_SID_BYTES`, `G729_SILENCE_BYTES`, `G729_FRAME_BYTES` and no
default; the result is `RAW_FRAME_BYTES` on every path. -/
def g729_decode {Chan : Type} (env : Env Chan) (s : Session Chan)
    (imap : List guint8) (g729_data g729_len pcm_data : Nat) : Session Chan × Nat :=
  let s0 := { s with trace := s.trace ++ [Event.g729_decode g729_data g729_len pcm_data] }
  let s1 :=
    if g729_len = G729_SID_BYTES then
      call_bcg729Decoder env s0 imap g729_data g729_len false true false pcm_data
    else if g729_len = G729_SILENCE_BYTES then
      call_bcg729Decoder env s0 imap g729_data g729_len true false true pcm_data
    else if g729_len = G729_FRAME_BYTES then
      call_bcg729Decoder env s0 imap g729_data g729_len false false false pcm_data
    else s0
  (s1, RAW_FRAME_BYTES)

/-- The body of the frame loop (lines 214-218). -/
def loop_body {Chan : Type} (env : Env Chan) (imap : List guint8)
    (st : Session Chan × Cursor) : Session Chan × Cursor :=
  let g729_len := if st.2.size ≥ G729_FRAME_BYTES then G729_FRAME_BYTES else st.2.size
  let s1 := (g729_decode env st.1 imap st.2.in_ptr g729_len st.2.out_ptr).1
  (s1, { in_ptr := st.2.in_ptr + G729_FRAME_BYTES
         size := (st.2.size + GUINT_RANGE - G729_FRAME_BYTES) % GUINT_RANGE
         out_ptr := st.2.out_ptr + RAW_FRAME_BYTES / 2 })

/-- The loop `for (i = 0; i < num_frames; i++)` (lines 211-219), by recursion
on the number of iterations that remain. -/
def frame_loop {Chan : Type} (env : Env Chan) (imap : List guint8) :
    Nat → Session Chan × Cursor → Session Chan × Cursor
  | 0, st => st
  | n + 1, st => frame_loop env imap n (loop_body env imap st)

/-- The size check of line 189: the branch that logs "wrong buffer size" and
returns `GST_FLOW_ERROR` is taken exactly when this is `true`. -/
def wrong_buffer_size (size : Nat) : Bool :=
  decide (size % G729_FRAME_BYTES ≠ 0 ∧ size % G729_FRAME_BYTES ≠ G729_SID_BYTES)

/-- The value of `num_frames` after lines 195-199. -/
def num_frames (size : Nat) : Nat :=
  let n := size / G729_FRAME_BYTES
  let n := if size % G729_FRAME_BYTES = G729_SID_BYTES then (n + 1) % GUINT_RANGE else n
  if size = 0 then 1 else n

/-- The argument `num_frames * RAW_FRAME_BYTES` of the allocation (line 201),
a product of a `guint` and an `int` constant, hence taken modulo `2 ^ 32`. -/
def requested_size (size : Nat) : Nat :=
  (num_frames size * RAW_FRAME_BYTES) % GUINT_RANGE

/-- The value stored in `guint size` by `size = gst_buffer_get_size (buf)`
(line 184): the buffer size, a `gsize`, converted to 32 bits. -/
def buffer_size (buf : List guint8) : Nat :=
  buf.length % GUINT_RANGE

/-- The state in which the frame loop is entered. -/
def loop_entry {Chan : Type} (dec : GstG729Dec Chan) (buf omap : List guint8) :
    Session Chan × Cursor :=
  ({ dec := dec, omap := omap, overrun := false,
     trace := [Event.allocate_output_buffer (requested_size (buffer_size buf))] },
   { in_ptr := 0, size := buffer_size buf, out_ptr := 0 })

/-- Which `return` statement ended the call. -/
inductive Exit where
  | wrong_buffer_size
  | no_output_buffer
  | finish_frame
  deriving DecidableEq, Repr

/-- What a call of `gst_g729_dec_handle_frame` leaves behind: the returned
flow value, the statement that returned it, the element instance, the trace of
external calls, the buffer handed downstream (if any), the loop variables after
the last iteration (if the loop ran) and the overrun flag. -/
structure Result (Chan : Type) where
  ret : GstFlowReturn
  exit : Exit
  dec : GstG729Dec Chan
  trace : List Event
  outbuf : Option (List guint8)
  cursor : Option Cursor
  overrun : Bool
  deriving DecidableEq, Repr

/-- The function `gst_g729_dec_handle_frame` (lines 173-225). -/
def gst_g729_dec_handle_frame {Chan : Type} (env : Env Chan) (dec : GstG729Dec Chan)
    (buf : List guint8) : Result Chan :=
  let size := buffer_size buf
  if wrong_buffer_size size then
    { ret := GstFlowReturn.GST_FLOW_ERROR, exit := Exit.wrong_buffer_size, dec := dec,
      trace := [], outbuf := none, cursor := none, overrun := false }
  else
    match env.gst_audio_decoder_allocate_output_buffer (requested_size size) with
    | none =>
      { ret := GstFlowReturn.GST_FLOW_OK, exit := Exit.no_output_buffer, dec := dec,
        trace := [Event.allocate_output_buffer (requested_size size)],
        outbuf := none, cursor := none, overrun := false }
    | some omap =>
      let s0 : Session Chan :=
        { dec := dec, omap := omap, overrun := false,
          trace := [Event.allocate_output_buffer (requested_size size)] }
      let st := frame_loop env buf (num_frames size) (s0, { in_ptr := 0, size := size, out_ptr := 0 })
      { ret := env.gst_audio_decoder_finish_frame st.1.omap, exit := Exit.finish_frame,
        dec := st.1.dec, trace := st.1.trace ++ [Event.finish_frame st.1.omap],
        outbuf := some st.1.omap, cursor := some st.2, overrun := st.1.overrun }

/-- The `(g729_data, g729_len)` pairs of the entries into `g729_decode`, in order. -/
def frames_of : List Event → List (Nat × Nat)
  | [] => []
  | Event.g729_decode p len _ :: t => (p, len) :: frames_of t
  | _ :: t => frames_of t

/-- The invocations of the codec primitive in a trace, in order. -/
def decodes_of : List Event → List Event
  | [] => []
  | Event.bcg729Decoder p bs len e s r :: t => Event.bcg729Decoder p bs len e s r :: decodes_of t
  | _ :: t => decodes_of t

/-- The sizes asked of the allocator in a trace, in order. -/
def allocations_of : List Event → List Nat
  | [] => []
  | Event.allocate_output_buffer n :: t => n :: allocations_of t
  | _ :: t => allocations_of t

/-- A test environment: the channel context counts the invocations, a PCM block
is 320 copies of the frame length plus one, allocation always succeeds with a
zeroed buffer. -/
def demo : Env Nat :=
  { bcg729Decoder := fun ctx _ len _ _ _ => (ctx + 1, List.replicate 320 (len + 1))
    gst_audio_decoder_allocate_output_buffer := fun n => some (List.replicate n 0)
    gst_audio_decoder_finish_frame := fun _ => GstFlowReturn.GST_FLOW_OK }

/-- A test environment in which every allocation fails. -/
def demo_no_memory : Env Nat :=
  { demo with gst_audio_decoder_allocate_output_buffer := fun _ => none }

/-- The `(g729_data, bitStreamLength)` pairs of the invocations of the codec
primitive in a trace, in order. -/
def decoded_frames : List Event → List (Nat × Nat)
  | [] => []
  | Event.bcg729Decoder p _ len _ _ _ :: t => (p, len) :: decoded_frames t
  | _ :: t => decoded_frames t

/-- The frames `(in_ptr, g729_len)` that `n` iterations of the frame loop hand to
`g729_decode`, computed from the loop variables alone. -/
def loop_frames : Nat → Cursor → List (Nat × Nat)
  | 0, _ => []
  | n + 1, c =>
    (c.in_ptr, if c.size ≥ G729_FRAME_BYTES then G729_FRAME_BYTES else c.size) ::
      loop_frames n { in_ptr := c.in_ptr + G729_FRAME_BYTES
                      size := (c.size + GUINT_RANGE - G729_FRAME_BYTES) % GUINT_RANGE
                      out_ptr := c.out_ptr + RAW_FRAME_BYTES / 2 }

/-- Follows the wording of the output-assembly claim: the frames are decoded from
left to right, frame `i` with the channel state left by frame `i - 1`, with the
flags of the table of section 4.2; the result is the channel state left by the
last frame and the concatenation of the PCM blocks. -/
def decode_chain {Chan : Type} (env : Env Chan) (imap : List guint8) :
    List (Nat × Nat) → Chan → Chan × List guint8
  | [], c => (c, [])
  | f :: t, c =>
    let r := env.bcg729Decoder c ((imap.drop f.1).take f.2) f.2
      (decide (f.2 = 0)) (decide (f.2 = 2)) (decide (f.2 = 0))
    ((decode_chain env imap t r.1).1, r.2 ++ (decode_chain env imap t r.1).2)

/-- The frames `(offset, length)` of an input whose `size` is `L` and passes the
size check: `L / 10` voice frames, then a SID frame if `L mod 10 = 2`, or the
single erasure frame if `L = 0`. -/
def accepted_frames (L : Nat) : List (Nat × Nat) :=
  (List.range (L / 10)).map (fun i => (10 * i, 10)) ++
    (if L % 10 = 2 then [(10 * (L / 10), 2)] else if L = 0 then [(0, 0)] else [])

/-- One use of the bcg729 channel of an instance: `init` when
`initBcg729DecoderChannel` returns it, `decode b` when it is handed to
`bcg729Decoder`, `close b` when it is handed to `closeBcg729DecoderChannel`;
`b` tells whether the channel was open at that moment. -/
inductive ChannelUse where
  | init
  | decode (is_open : Bool)
  | close (is_open : Bool)
  deriving DecidableEq, Repr

/-- An element instance together with the state of its channel in the bcg729
library: `is_open` holds from `initBcg729DecoderChannel` until
`closeBcg729DecoderChannel`; `uses` records every use of the channel. -/
structure Element (Chan : Type) where
  dec : GstG729Dec Chan
  is_open : Bool
  uses : List ChannelUse
  deriving DecidableEq, Repr

/-- The function `gst_g729_dec_init` (lines 119-125): `vad` is cleared and the
channel is the one returned by `initBcg729DecoderChannel`. (The call of
`gst_audio_decoder_set_drainable` concerns the base class only.) -/
def gst_g729_dec_init {Chan : Type} (initBcg729DecoderChannel : Chan) : Element Chan :=
  { dec := { vad := 0, dec := initBcg729DecoderChannel }
    is_open := true
    uses := [ChannelUse.init] }

/-- The function `gst_g729_dec_stop` (lines 127-136): `vad` is cleared, `dec->dec`
is handed to `closeBcg729DecoderChannel` and the pointer is kept as it is; the
result is `TRUE`. -/
def gst_g729_dec_stop {Chan : Type} (el : Element Chan) : Element Chan × Bool :=
  ({ dec := { el.dec with vad := 0 }
     is_open := false
     uses := el.uses ++ [ChannelUse.close el.is_open] }, true)

/-- A call of `gst_g729_dec_handle_frame` on an element: every invocation of the
codec primitive in its trace is a use of the channel of the element. -/
def element_handle_frame {Chan : Type} (env : Env Chan) (el : Element Chan)
    (buf : List guint8) : Element Chan × GstFlowReturn :=
  let r := gst_g729_dec_handle_frame env el.dec buf
  ({ dec := r.dec
     is_open := el.is_open
     uses := el.uses ++ (decodes_of r.trace).map (fun _ => ChannelUse.decode el.is_open) },
   r.ret)

/-- An operation the base class performs on an instance after `gst_g729_dec_init`. -/
inductive Call where
  | handle_frame (buf : List guint8)
  | stop
  deriving DecidableEq, Repr

/-- A sequence of operations on one instance, from left to right. -/
def run_calls {Chan : Type} (env : Env Chan) : List Call → Element Chan → Element Chan
  | [], el => el
  | Call.handle_frame buf :: t, el => run_calls env t (element_handle_frame env el buf).1
  | Call.stop :: t, el => run_calls env t (gst_g729_dec_stop el).1

/-- Whether a use of the channel found it open. -/
def on_open_channel : ChannelUse → Bool
  | ChannelUse.init => true
  | ChannelUse.decode b => b
  | ChannelUse.close b => b

/-- The number of times the channel was handed to `closeBcg729DecoderChannel`. -/
def close_count : List ChannelUse → Nat
  | [] => 0
  | ChannelUse.close _ :: t => close_count t + 1
  | _ :: t => close_count t

/-! ## Basic facts about the size arithmetic -/

theorem wrong_buffer_size_eq_true (size : Nat) :
    wrong_buffer_size size = true ↔ ¬ (size % 10 = 0 ∨ size % 10 = 2) := by
  unfold wrong_buffer_size
  simp only [decide_eq_true_eq, G729_FRAME_BYTES, G729_SID_BYTES]
  omega

theorem wrong_buffer_size_eq_false (size : Nat) :
    wrong_buffer_size size = false ↔ (size % 10 = 0 ∨ size % 10 = 2) := by
  rw [← Bool.not_eq_true, wrong_buffer_size_eq_true]
  omega

theorem buffer_size_lt (buf : List guint8) : buffer_size buf < 4294967296 := by
  unfold buffer_size
  exact Nat.mod_lt _ (by decide)

theorem buffer_size_of_lt (buf : List guint8) (h : buf.length < 4294967296) :
    buffer_size buf = buf.length := by
  unfold buffer_size
  exact Nat.mod_eq_of_lt h

theorem buffer_size_replicate (n : Nat) (a : guint8) :
    buffer_size (List.replicate n a) = n % 4294967296 := by
  unfold buffer_size
  rw [List.length_replicate]

theorem num_frames_zero : num_frames 0 = 1 := by decide

theorem num_frames_voice (size : Nat) (h0 : size ≠ 0) (h : size % 10 = 0) :
    num_frames size = size / 10 := by
  unfold num_frames
  simp only [G729_FRAME_BYTES, G729_SID_BYTES, GUINT_RANGE]
  rw [if_neg h0, if_neg (by omega)]

theorem num_frames_sid (size : Nat) (hlt : size < 4294967296) (h : size % 10 = 2) :
    num_frames size = size / 10 + 1 := by
  unfold num_frames
  simp only [G729_FRAME_BYTES, G729_SID_BYTES, GUINT_RANGE]
  rw [if_neg (by omega), if_pos h]
  omega

/-! ## Trace projections -/

theorem frames_of_append (a b : List Event) :
    frames_of (a ++ b) = frames_of a ++ frames_of b := by
  induction a with
  | nil => rfl
  | cons e t ih => cases e <;> simp [frames_of, ih]

theorem decodes_of_append (a b : List Event) :
    decodes_of (a ++ b) = decodes_of a ++ decodes_of b := by
  induction a with
  | nil => rfl
  | cons e t ih => cases e <;> simp [decodes_of, ih]

theorem allocations_of_append (a b : List Event) :
    allocations_of (a ++ b) = allocations_of a ++ allocations_of b := by
  induction a with
  | nil => rfl
  | cons e t ih => cases e <;> simp [allocations_of, ih]

/-! ## One call of `g729_decode` -/

theorem call_bcg729Decoder_trace {Chan : Type} (env : Env Chan) (s : Session Chan)
    (imap : List guint8) (p len : Nat) (e sid r : Bool) (q : Nat) :
    (call_bcg729Decoder env s imap p len e sid r q).trace =
      s.trace ++ [Event.bcg729Decoder p ((imap.drop p).take len) len e sid r] := rfl

theorem g729_decode_frames {Chan : Type} (env : Env Chan) (s : Session Chan)
    (imap : List guint8) (p len q : Nat) :
    frames_of (g729_decode env s imap p len q).1.trace = frames_of s.trace ++ [(p, len)] := by
  unfold g729_decode
  simp only
  split_ifs <;>
    simp [call_bcg729Decoder_trace, frames_of_append, frames_of]

theorem g729_decode_allocations {Chan : Type} (env : Env Chan) (s : Session Chan)
    (imap : List guint8) (p len q : Nat) :
    allocations_of (g729_decode env s imap p len q).1.trace = allocations_of s.trace := by
  unfold g729_decode
  simp only
  split_ifs <;>
    simp [call_bcg729Decoder_trace, allocations_of_append, allocations_of]

theorem g729_decode_decodes {Chan : Type} (env : Env Chan) (s : Session Chan)
    (imap : List guint8) (p len q : Nat) :
    decodes_of (g729_decode env s imap p len q).1.trace =
      decodes_of s.trace ++
        (if len = 2 then [Event.bcg729Decoder p ((imap.drop p).take len) len false true false]
         else if len = 0 then [Event.bcg729Decoder p ((imap.drop p).take len) len true false true]
         else if len = 10 then
           [Event.bcg729Decoder p ((imap.drop p).take len) len false false false]
         else []) := by
  unfold g729_decode
  simp only [G729_SID_BYTES, G729_SILENCE_BYTES, G729_FRAME_BYTES]
  split_ifs <;>
    simp [call_bcg729Decoder_trace, decodes_of_append, decodes_of]

theorem g729_decode_vad {Chan : Type} (env : Env Chan) (s : Session Chan)
    (imap : List guint8) (p len q : Nat) :
    (g729_decode env s imap p len q).1.dec.vad = s.dec.vad := by
  unfold g729_decode
  simp only
  split_ifs <;> rfl

theorem poke_length (mem : List guint8) (off : Nat) (block : List guint8) :
    (poke mem off block).length = mem.length := by
  unfold poke
  simp only [List.length_append, List.length_take, List.length_drop]
  omega

theorem g729_decode_omap_length {Chan : Type} (env : Env Chan) (s : Session Chan)
    (imap : List guint8) (p len q : Nat) :
    (g729_decode env s imap p len q).1.omap.length = s.omap.length := by
  unfold g729_decode
  simp only
  split_ifs <;> simp [call_bcg729Decoder, poke_length]

/-! ## The frame loop -/

theorem frame_loop_succ {Chan : Type} (env : Env Chan) (imap : List guint8) (n : Nat)
    (st : Session Chan × Cursor) :
    frame_loop env imap (n + 1) st = loop_body env imap (frame_loop env imap n st) := by
  induction n generalizing st with
  | zero => rfl
  | succ n ih =>
    show frame_loop env imap (n + 1) (loop_body env imap st) = _
    rw [ih]
    rfl

theorem frame_loop_in_ptr {Chan : Type} (env : Env Chan) (imap : List guint8) (n : Nat)
    (st : Session Chan × Cursor) :
    (frame_loop env imap n st).2.in_ptr = st.2.in_ptr + 10 * n := by
  induction n generalizing st with
  | zero => rfl
  | succ n ih =>
    show (frame_loop env imap n (loop_body env imap st)).2.in_ptr = _
    rw [ih]
    simp only [loop_body, G729_FRAME_BYTES]
    omega

theorem frame_loop_out_ptr {Chan : Type} (env : Env Chan) (imap : List guint8) (n : Nat)
    (st : Session Chan × Cursor) :
    (frame_loop env imap n st).2.out_ptr = st.2.out_ptr + 160 * n := by
  induction n generalizing st with
  | zero => rfl
  | succ n ih =>
    show (frame_loop env imap n (loop_body env imap st)).2.out_ptr = _
    rw [ih]
    simp only [loop_body, RAW_FRAME_BYTES]
    omega

theorem frame_loop_size {Chan : Type} (env : Env Chan) (imap : List guint8) (n : Nat)
    (st : Session Chan × Cursor) (hlt : st.2.size < 4294967296) (hn : 10 * n ≤ st.2.size) :
    (frame_loop env imap n st).2.size = st.2.size - 10 * n := by
  induction n generalizing st with
  | zero => rfl
  | succ n ih =>
    show (frame_loop env imap n (loop_body env imap st)).2.size = _
    have hs : (loop_body env imap st).2.size = st.2.size - 10 := by
      simp only [loop_body, G729_FRAME_BYTES, GUINT_RANGE]
      omega
    rw [ih _ (by omega) (by omega), hs]
    omega

theorem frame_loop_allocations {Chan : Type} (env : Env Chan) (imap : List guint8) (n : Nat)
    (st : Session Chan × Cursor) :
    allocations_of (frame_loop env imap n st).1.trace = allocations_of st.1.trace := by
  induction n generalizing st with
  | zero => rfl
  | succ n ih =>
    show allocations_of (frame_loop env imap n (loop_body env imap st)).1.trace = _
    rw [ih]
    simp only [loop_body, g729_decode_allocations]

theorem frame_loop_vad {Chan : Type} (env : Env Chan) (imap : List guint8) (n : Nat)
    (st : Session Chan × Cursor) :
    (frame_loop env imap n st).1.dec.vad = st.1.dec.vad := by
  induction n generalizing st with
  | zero => rfl
  | succ n ih =>
    show (frame_loop env imap n (loop_body env imap st)).1.dec.vad = _
    rw [ih]
    simp only [loop_body, g729_decode_vad]

theorem frame_loop_omap_length {Chan : Type} (env : Env Chan) (imap : List guint8) (n : Nat)
    (st : Session Chan × Cursor) :
    (frame_loop env imap n st).1.omap.length = st.1.omap.length := by
  induction n generalizing st with
  | zero => rfl
  | succ n ih =>
    show (frame_loop env imap n (loop_body env imap st)).1.omap.length = _
    rw [ih]
    simp only [loop_body, g729_decode_omap_length]

theorem loop_body_frames {Chan : Type} (env : Env Chan) (imap : List guint8)
    (st : Session Chan × Cursor) :
    frames_of (loop_body env imap st).1.trace =
      frames_of st.1.trace ++ [(st.2.in_ptr, if 10 ≤ st.2.size then 10 else st.2.size)] := by
  simp only [loop_body, g729_decode_frames, G729_FRAME_BYTES, ge_iff_le]

theorem loop_body_decodes {Chan : Type} (env : Env Chan) (imap : List guint8)
    (st : Session Chan × Cursor) (len : Nat)
    (hlen : len = if 10 ≤ st.2.size then 10 else st.2.size) :
    decodes_of (loop_body env imap st).1.trace =
      decodes_of st.1.trace ++
        (if len = 2 then
           [Event.bcg729Decoder st.2.in_ptr ((imap.drop st.2.in_ptr).take len) len false true false]
         else if len = 0 then
           [Event.bcg729Decoder st.2.in_ptr ((imap.drop st.2.in_ptr).take len) len true false true]
         else if len = 10 then
           [Event.bcg729Decoder st.2.in_ptr ((imap.drop st.2.in_ptr).take len) len
              false false false]
         else []) := by
  subst hlen
  simp only [loop_body, g729_decode_decodes, G729_FRAME_BYTES, ge_iff_le]

theorem frame_loop_frames_voice {Chan : Type} (env : Env Chan) (imap : List guint8) (n : Nat)
    (st : Session Chan × Cursor) (hlt : st.2.size < 4294967296) (hn : 10 * n ≤ st.2.size) :
    frames_of (frame_loop env imap n st).1.trace =
      frames_of st.1.trace ++ (List.range n).map (fun i => (st.2.in_ptr + 10 * i, 10)) := by
  induction n with
  | zero => simp [frame_loop]
  | succ n ih =>
    rw [frame_loop_succ, loop_body_frames, ih (by omega), frame_loop_in_ptr,
      frame_loop_size env imap n st hlt (by omega), if_pos (by omega), List.range_succ,
      List.map_append, List.append_assoc]
    rfl

theorem frame_loop_decodes_voice {Chan : Type} (env : Env Chan) (imap : List guint8) (n : Nat)
    (st : Session Chan × Cursor) (hlt : st.2.size < 4294967296) (hn : 10 * n ≤ st.2.size) :
    decodes_of (frame_loop env imap n st).1.trace =
      decodes_of st.1.trace ++ (List.range n).map (fun i =>
        Event.bcg729Decoder (st.2.in_ptr + 10 * i) ((imap.drop (st.2.in_ptr + 10 * i)).take 10) 10
          false false false) := by
  induction n with
  | zero => simp [frame_loop]
  | succ n ih =>
    rw [frame_loop_succ, loop_body_decodes env imap _ 10, ih (by omega), frame_loop_in_ptr,
      List.range_succ, List.map_append, List.append_assoc]
    · rfl
    · rw [frame_loop_size env imap n st hlt (by omega), if_pos (by omega)]

/-! ## The whole call -/

theorem handle_frame_wrong {Chan : Type} (env : Env Chan) (dec : GstG729Dec Chan)
    (buf : List guint8) (h : wrong_buffer_size (buffer_size buf) = true) :
    gst_g729_dec_handle_frame env dec buf =
      { ret := GstFlowReturn.GST_FLOW_ERROR, exit := Exit.wrong_buffer_size, dec := dec,
        trace := [], outbuf := none, cursor := none, overrun := false } := by
  unfold gst_g729_dec_handle_frame
  simp only [h, if_true]

theorem handle_frame_no_buffer {Chan : Type} (env : Env Chan) (dec : GstG729Dec Chan)
    (buf : List guint8) (h : wrong_buffer_size (buffer_size buf) = false)
    (ha : env.gst_audio_decoder_allocate_output_buffer (requested_size (buffer_size buf)) = none) :
    gst_g729_dec_handle_frame env dec buf =
      { ret := GstFlowReturn.GST_FLOW_OK, exit := Exit.no_output_buffer, dec := dec,
        trace := [Event.allocate_output_buffer (requested_size (buffer_size buf))],
        outbuf := none, cursor := none, overrun := false } := by
  unfold gst_g729_dec_handle_frame
  simp only [h, ha, Bool.false_eq_true, if_false]

theorem handle_frame_finish {Chan : Type} (env : Env Chan) (dec : GstG729Dec Chan)
    (buf omap : List guint8) (h : wrong_buffer_size (buffer_size buf) = false)
    (ha : env.gst_audio_decoder_allocate_output_buffer (requested_size (buffer_size buf)) =
      some omap) :
    gst_g729_dec_handle_frame env dec buf =
      let st := frame_loop env buf (num_frames (buffer_size buf)) (loop_entry dec buf omap)
      { ret := env.gst_audio_decoder_finish_frame st.1.omap, exit := Exit.finish_frame,
        dec := st.1.dec, trace := st.1.trace ++ [Event.finish_frame st.1.omap],
        outbuf := some st.1.omap, cursor := some st.2, overrun := st.1.overrun } := by
  unfold gst_g729_dec_handle_frame
  simp only [h, ha, Bool.false_eq_true, if_false, loop_entry]

theorem handle_frame_exit {Chan : Type} (env : Env Chan) (dec : GstG729Dec Chan)
    (buf : List guint8) :
    (gst_g729_dec_handle_frame env dec buf).exit = Exit.wrong_buffer_size ↔
      wrong_buffer_size (buffer_size buf) = true := by
  cases h : wrong_buffer_size (buffer_size buf) with
  | true => simp [handle_frame_wrong env dec buf h]
  | false =>
    cases ha : env.gst_audio_decoder_allocate_output_buffer (requested_size (buffer_size buf)) with
    | none => simp [handle_frame_no_buffer env dec buf h ha]
    | some omap => simp [handle_frame_finish env dec buf omap h ha]

theorem handle_frame_allocations {Chan : Type} (env : Env Chan) (dec : GstG729Dec Chan)
    (buf : List guint8) (h : wrong_buffer_size (buffer_size buf) = false) :
    allocations_of (gst_g729_dec_handle_frame env dec buf).trace =
      [requested_size (buffer_size buf)] := by
  cases ha : env.gst_audio_decoder_allocate_output_buffer (requested_size (buffer_size buf)) with
  | none => simp [handle_frame_no_buffer env dec buf h ha, allocations_of]
  | some omap =>
    simp [handle_frame_finish env dec buf omap h ha, allocations_of_append,
      frame_loop_allocations, loop_entry, allocations_of]

theorem frame_loop_frames_accepted {Chan : Type} (env : Env Chan) (imap : List guint8)
    (st : Session Chan × Cursor) (hlt : st.2.size < 4294967296)
    (hacc : st.2.size % 10 = 0 ∨ st.2.size % 10 = 2) :
    frames_of (frame_loop env imap (num_frames st.2.size) st).1.trace =
      frames_of st.1.trace ++
        ((List.range (st.2.size / 10)).map (fun i => (st.2.in_ptr + 10 * i, 10)) ++
          (if st.2.size % 10 = 2 then [(st.2.in_ptr + 10 * (st.2.size / 10), 2)]
           else if st.2.size = 0 then [(st.2.in_ptr, 0)] else [])) := by
  by_cases h0 : st.2.size = 0
  · rw [h0, num_frames_zero]
    show frames_of (loop_body env imap st).1.trace = _
    rw [loop_body_frames, h0]
    simp
  · rcases hacc with h | h
    · rw [num_frames_voice _ h0 h, frame_loop_frames_voice env imap _ st hlt (by omega),
        if_neg (by omega), if_neg h0, List.append_nil]
    · rw [num_frames_sid _ hlt h, frame_loop_succ, loop_body_frames,
        frame_loop_frames_voice env imap _ st hlt (by omega), frame_loop_in_ptr,
        frame_loop_size env imap _ st hlt (by omega), if_neg (by omega), if_pos h,
        List.append_assoc]
      have hr : st.2.size - 10 * (st.2.size / 10) = 2 := by omega
      rw [hr]

theorem frame_loop_decodes_accepted {Chan : Type} (env : Env Chan) (imap : List guint8)
    (st : Session Chan × Cursor) (hlt : st.2.size < 4294967296)
    (hacc : st.2.size % 10 = 0 ∨ st.2.size % 10 = 2) :
    decodes_of (frame_loop env imap (num_frames st.2.size) st).1.trace =
      decodes_of st.1.trace ++
        ((List.range (st.2.size / 10)).map (fun i =>
            Event.bcg729Decoder (st.2.in_ptr + 10 * i)
              ((imap.drop (st.2.in_ptr + 10 * i)).take 10) 10 false false false) ++
          (if st.2.size % 10 = 2 then
             [Event.bcg729Decoder (st.2.in_ptr + 10 * (st.2.size / 10))
                ((imap.drop (st.2.in_ptr + 10 * (st.2.size / 10))).take 2) 2 false true false]
           else if st.2.size = 0 then
             [Event.bcg729Decoder st.2.in_ptr ((imap.drop st.2.in_ptr).take 0) 0 true false true]
           else [])) := by
  by_cases h0 : st.2.size = 0
  · rw [h0, num_frames_zero]
    show decodes_of (loop_body env imap st).1.trace = _
    rw [loop_body_decodes env imap st 0 (by rw [h0]; rfl)]
    simp
  · rcases hacc with h | h
    · rw [num_frames_voice _ h0 h, frame_loop_decodes_voice env imap _ st hlt (by omega),
        if_neg (by omega), if_neg h0, List.append_nil]
    · rw [num_frames_sid _ hlt h, frame_loop_succ,
        loop_body_decodes env imap _ 2
          (by rw [frame_loop_size env imap _ st hlt (by omega), if_neg (by omega)]; omega),
        frame_loop_decodes_voice env imap _ st hlt (by omega), frame_loop_in_ptr,
        if_pos h, List.append_assoc]
      simp

/-- The frames handed to `g729_decode` by a call that reaches the loop. -/
theorem handle_frame_frames {Chan : Type} (env : Env Chan) (dec : GstG729Dec Chan)
    (buf omap : List guint8) (h : wrong_buffer_size (buffer_size buf) = false)
    (ha : env.gst_audio_decoder_allocate_output_buffer (requested_size (buffer_size buf)) =
      some omap) :
    frames_of (gst_g729_dec_handle_frame env dec buf).trace =
      (List.range (buffer_size buf / 10)).map (fun i => (10 * i, 10)) ++
        (if buffer_size buf % 10 = 2 then [(10 * (buffer_size buf / 10), 2)]
         else if buffer_size buf = 0 then [(0, 0)] else []) := by
  rw [handle_frame_finish env dec buf omap h ha]
  simp only [frames_of_append]
  have hacc := (wrong_buffer_size_eq_false _).1 h
  have := frame_loop_frames_accepted env buf (loop_entry dec buf omap) (buffer_size_lt buf) hacc
  simp only [loop_entry] at this ⊢
  rw [this]
  simp [frames_of]

/-- The invocations of the codec primitive by a call that reaches the loop. -/
theorem handle_frame_decodes {Chan : Type} (env : Env Chan) (dec : GstG729Dec Chan)
    (buf omap : List guint8) (h : wrong_buffer_size (buffer_size buf) = false)
    (ha : env.gst_audio_decoder_allocate_output_buffer (requested_size (buffer_size buf)) =
      some omap) :
    decodes_of (gst_g729_dec_handle_frame env dec buf).trace =
      (List.range (buffer_size buf / 10)).map (fun i =>
          Event.bcg729Decoder (10 * i) ((buf.drop (10 * i)).take 10) 10 false false false) ++
        (if buffer_size buf % 10 = 2 then
           [Event.bcg729Decoder (10 * (buffer_size buf / 10))
              ((buf.drop (10 * (buffer_size buf / 10))).take 2) 2 false true false]
         else if buffer_size buf = 0 then [Event.bcg729Decoder 0 [] 0 true false true]
         else []) := by
  rw [handle_frame_finish env dec buf omap h ha]
  simp only [decodes_of_append]
  have hacc := (wrong_buffer_size_eq_false _).1 h
  have := frame_loop_decodes_accepted env buf (loop_entry dec buf omap) (buffer_size_lt buf) hacc
  simp only [loop_entry] at this ⊢
  rw [this]
  simp [decodes_of]

theorem handle_frame_reaches_loop {Chan : Type} (env : Env Chan) (dec : GstG729Dec Chan)
    (buf : List guint8)
    (hfin : (gst_g729_dec_handle_frame env dec buf).exit = Exit.finish_frame) :
    wrong_buffer_size (buffer_size buf) = false ∧
      ∃ omap, env.gst_audio_decoder_allocate_output_buffer (requested_size (buffer_size buf)) =
        some omap := by
  cases h : wrong_buffer_size (buffer_size buf) with
  | true => simp [handle_frame_wrong env dec buf h] at hfin
  | false =>
    cases ha : env.gst_audio_decoder_allocate_output_buffer (requested_size (buffer_size buf)) with
    | none => simp [handle_frame_no_buffer env dec buf h ha] at hfin
    | some omap => exact ⟨rfl, omap, rfl⟩

theorem requested_size_exact (size : Nat) (hacc : size % 10 = 0 ∨ size % 10 = 2)
    (hle : size ≤ 134217720) :
    requested_size size =
      if size = 0 then 320 else (size / 10 + (if size % 10 = 2 then 1 else 0)) * 320 := by
  unfold requested_size
  simp only [RAW_FRAME_BYTES, GUINT_RANGE]
  by_cases h0 : size = 0
  · subst h0
    rfl
  · rw [if_neg h0]
    rcases hacc with h | h
    · rw [num_frames_voice _ h0 h, if_neg (by omega)]
      omega
    · rw [num_frames_sid _ (by omega) h, if_pos h]
      omega

/-- A call whose `size` is 10 and whose allocation succeeds leaves the channel
context returned by one voice decode of the first ten bytes. -/
theorem handle_frame_one_voice {Chan : Type} (env : Env Chan) (dec : GstG729Dec Chan)
    (buf omap : List guint8) (h : buffer_size buf = 10)
    (ha : env.gst_audio_decoder_allocate_output_buffer 320 = some omap) :
    (gst_g729_dec_handle_frame env dec buf).dec.dec =
      (env.bcg729Decoder dec.dec (buf.take 10) 10 false false false).1 := by
  have hok : wrong_buffer_size (buffer_size buf) = false := by rw [h]; decide
  have hr : requested_size (buffer_size buf) = 320 := by rw [h]; decide
  rw [handle_frame_finish env dec buf omap hok (by rw [hr]; exact ha), h]
  have hn : num_frames 10 = 1 := by decide
  rw [hn]
  simp [frame_loop, loop_body, g729_decode, call_bcg729Decoder, loop_entry, h]

theorem handle_frame_outbuf_length {Chan : Type} (env : Env Chan) (dec : GstG729Dec Chan)
    (buf omap : List guint8) (h : wrong_buffer_size (buffer_size buf) = false)
    (ha : env.gst_audio_decoder_allocate_output_buffer (requested_size (buffer_size buf)) =
      some omap) :
    (gst_g729_dec_handle_frame env dec buf).outbuf.map List.length = some omap.length := by
  rw [handle_frame_finish env dec buf omap h ha]
  simp only [Option.map_some', frame_loop_omap_length, loop_entry]

theorem g729_decode_trace_prefix {Chan : Type} (env : Env Chan) (s : Session Chan)
    (imap : List guint8) (p len q : Nat) :
    ∃ ext, (g729_decode env s imap p len q).1.trace = s.trace ++ ext := by
  unfold g729_decode
  simp only
  split_ifs
  · exact ⟨_, by rw [call_bcg729Decoder_trace, List.append_assoc]⟩
  · exact ⟨_, by rw [call_bcg729Decoder_trace, List.append_assoc]⟩
  · exact ⟨_, by rw [call_bcg729Decoder_trace, List.append_assoc]⟩
  · exact ⟨_, rfl⟩

theorem frame_loop_trace_prefix {Chan : Type} (env : Env Chan) (imap : List guint8) (n : Nat)
    (st : Session Chan × Cursor) :
    ∃ ext, (frame_loop env imap n st).1.trace = st.1.trace ++ ext := by
  induction n generalizing st with
  | zero => exact ⟨[], (List.append_nil _).symm⟩
  | succ n ih =>
    obtain ⟨e1, h1⟩ := ih (loop_body env imap st)
    obtain ⟨e2, h2⟩ := g729_decode_trace_prefix env st.1 imap st.2.in_ptr
      (if st.2.size ≥ G729_FRAME_BYTES then G729_FRAME_BYTES else st.2.size) st.2.out_ptr
    refine ⟨e2 ++ e1, ?_⟩
    show (frame_loop env imap n (loop_body env imap st)).1.trace = _
    rw [h1, ← List.append_assoc, ← h2]
    rfl

theorem decoded_frames_append (a b : List Event) :
    decoded_frames (a ++ b) = decoded_frames a ++ decoded_frames b := by
  induction a with
  | nil => rfl
  | cons e t ih => cases e <;> simp [decoded_frames, ih]

theorem decoded_frames_decodes_of (a : List Event) :
    decoded_frames (decodes_of a) = decoded_frames a := by
  induction a with
  | nil => rfl
  | cons e t ih => cases e <;> simp [decoded_frames, decodes_of, ih]

theorem decoded_frames_map_voice (imap : List guint8) (l : List Nat) :
    decoded_frames (l.map (fun i =>
      Event.bcg729Decoder (10 * i) ((imap.drop (10 * i)).take 10) 10 false false false)) =
      l.map (fun i => (10 * i, 10)) := by
  induction l with
  | nil => rfl
  | cons a t ih => simp [decoded_frames, ih]

theorem num_frames_eq (size : Nat) (hlt : size < 4294967296)
    (hacc : size % 10 = 0 ∨ size % 10 = 2) :
    num_frames size = size / 10 + (if size % 10 = 2 then 1 else if size = 0 then 1 else 0) := by
  by_cases h0 : size = 0
  · subst h0
    rfl
  · rcases hacc with h | h
    · rw [num_frames_voice _ h0 h, if_neg (by omega), if_neg h0]
      rfl
    · rw [num_frames_sid _ hlt h, if_pos h]

theorem frame_loop_frames {Chan : Type} (env : Env Chan) (imap : List guint8) (n : Nat)
    (st : Session Chan × Cursor) :
    frames_of (frame_loop env imap n st).1.trace =
      frames_of st.1.trace ++ loop_frames n st.2 := by
  induction n generalizing st with
  | zero => simp [frame_loop, loop_frames]
  | succ n ih =>
    show frames_of (frame_loop env imap n (loop_body env imap st)).1.trace = _
    rw [ih, loop_body_frames, List.append_assoc]
    rfl

theorem poke_at_boundary (pre rest block : List guint8) (h : block.length ≤ rest.length) :
    poke (pre ++ rest) pre.length block = (pre ++ block) ++ rest.drop block.length := by
  unfold poke
  rw [List.take_left, List.length_append, Nat.add_sub_cancel_left, List.take_of_length_le h,
    List.drop_append]

theorem g729_decode_table {Chan : Type} (env : Env Chan) (s : Session Chan)
    (imap : List guint8) (p len q : Nat) (hlen : len = 0 ∨ len = 2 ∨ len = 10) :
    (g729_decode env s imap p len q).1 =
      call_bcg729Decoder env
        { s with trace := s.trace ++ [Event.g729_decode p len q] } imap p len
        (decide (len = 0)) (decide (len = 2)) (decide (len = 0)) q := by
  rcases hlen with h | h | h <;> subst h <;> rfl

theorem frame_loop_assembly {Chan : Type} (env : Env Chan) (imap : List guint8)
    (hblk : ∀ c bs n e s r, (env.bcg729Decoder c bs n e s r).2.length = 320)
    (n : Nat) (st : Session Chan × Cursor) (pre rest : List guint8)
    (homap : st.1.omap = pre ++ rest) (hpre : pre.length = 2 * st.2.out_ptr)
    (hrest : 320 * n ≤ rest.length)
    (hlens : ∀ f ∈ loop_frames n st.2, f.2 = 0 ∨ f.2 = 2 ∨ f.2 = 10) :
    (frame_loop env imap n st).1.omap =
        pre ++ (decode_chain env imap (loop_frames n st.2) st.1.dec.dec).2 ++
          rest.drop (320 * n) ∧
      (frame_loop env imap n st).1.dec.dec =
        (decode_chain env imap (loop_frames n st.2) st.1.dec.dec).1 ∧
      (frame_loop env imap n st).1.overrun = st.1.overrun := by
  induction n generalizing st pre rest with
  | zero => simp [frame_loop, loop_frames, decode_chain, homap]
  | succ n ih =>
    have hl := hlens _ (List.mem_cons_self _ _)
    have hstep : (loop_body env imap st).1 = call_bcg729Decoder env
        { st.1 with trace := st.1.trace ++ [Event.g729_decode st.2.in_ptr
            (if st.2.size ≥ G729_FRAME_BYTES then G729_FRAME_BYTES else st.2.size)
            st.2.out_ptr] } imap st.2.in_ptr
        (if st.2.size ≥ G729_FRAME_BYTES then G729_FRAME_BYTES else st.2.size)
        (decide ((if st.2.size ≥ G729_FRAME_BYTES then G729_FRAME_BYTES else st.2.size) = 0))
        (decide ((if st.2.size ≥ G729_FRAME_BYTES then G729_FRAME_BYTES else st.2.size) = 2))
        (decide ((if st.2.size ≥ G729_FRAME_BYTES then G729_FRAME_BYTES else st.2.size) = 0))
        st.2.out_ptr := g729_decode_table env st.1 imap _ _ _ hl
    generalize hlen : (if st.2.size ≥ G729_FRAME_BYTES then G729_FRAME_BYTES else st.2.size) = len
      at hstep hl
    generalize hr : env.bcg729Decoder st.1.dec.dec ((imap.drop st.2.in_ptr).take len) len
      (decide (len = 0)) (decide (len = 2)) (decide (len = 0)) = r
    have hrl : r.2.length = 320 := by rw [← hr]; exact hblk _ _ _ _ _ _
    have homap2 : (loop_body env imap st).1.omap = (pre ++ r.2) ++ rest.drop 320 := by
      rw [hstep]
      simp only [call_bcg729Decoder, hr, homap]
      rw [← hpre, poke_at_boundary pre rest r.2 (by omega), hrl]
    have hdec2 : (loop_body env imap st).1.dec.dec = r.1 := by
      rw [hstep]
      simp only [call_bcg729Decoder, hr]
    have hov2 : (loop_body env imap st).1.overrun = st.1.overrun := by
      rw [hstep]
      simp only [call_bcg729Decoder, hr, homap, List.length_append]
      have : ¬ (pre.length + rest.length < 2 * st.2.out_ptr + r.2.length) := by omega
      simp [this]
    have hcur : (loop_body env imap st).2 =
        { in_ptr := st.2.in_ptr + G729_FRAME_BYTES
          size := (st.2.size + GUINT_RANGE - G729_FRAME_BYTES) % GUINT_RANGE
          out_ptr := st.2.out_ptr + RAW_FRAME_BYTES / 2 } := rfl
    have hih := ih (loop_body env imap st) (pre ++ r.2) (rest.drop 320) homap2
      (by rw [hcur, List.length_append, hrl, hpre]; simp only [RAW_FRAME_BYTES]; omega)
      (by rw [List.length_drop]; omega)
      (by
        intro f hf
        apply hlens
        rw [hcur] at hf
        exact List.mem_cons_of_mem _ hf)
    show (frame_loop env imap n (loop_body env imap st)).1.omap = _ ∧
      (frame_loop env imap n (loop_body env imap st)).1.dec.dec = _ ∧
      (frame_loop env imap n (loop_body env imap st)).1.overrun = _
    rw [hih.1, hih.2.1, hih.2.2, hov2, hdec2, hcur]
    have hlf : loop_frames (n + 1) st.2 = (st.2.in_ptr, len) ::
        loop_frames n { in_ptr := st.2.in_ptr + G729_FRAME_BYTES
                        size := (st.2.size + GUINT_RANGE - G729_FRAME_BYTES) % GUINT_RANGE
                        out_ptr := st.2.out_ptr + RAW_FRAME_BYTES / 2 } := by
      rw [← hlen]
      rfl
    rw [hlf]
    simp only [decode_chain, hr, List.drop_drop, List.append_assoc]
    have hd : 320 + 320 * n = 320 * (n + 1) := by omega
    rw [hd]
    exact ⟨rfl, trivial, trivial⟩

theorem g729_decode_overrun_mono {Chan : Type} (env : Env Chan) (s : Session Chan)
    (imap : List guint8) (p len q : Nat) (h : s.overrun = true) :
    (g729_decode env s imap p len q).1.overrun = true := by
  unfold g729_decode
  simp only
  split_ifs <;> simp [call_bcg729Decoder, h]

theorem frame_loop_overrun_mono {Chan : Type} (env : Env Chan) (imap : List guint8) (n : Nat)
    (st : Session Chan × Cursor) (h : st.1.overrun = true) :
    (frame_loop env imap n st).1.overrun = true := by
  induction n generalizing st with
  | zero => exact h
  | succ n ih =>
    exact ih (loop_body env imap st) (g729_decode_overrun_mono env st.1 imap _ _ _ h)

theorem num_frames_pos (size : Nat) (hlt : size < 4294967296)
    (hacc : size % 10 = 0 ∨ size % 10 = 2) : 1 ≤ num_frames size := by
  by_cases h0 : size = 0
  · subst h0
    decide
  · rcases hacc with h | h
    · rw [num_frames_voice _ h0 h]
      omega
    · rw [num_frames_sid _ hlt h]
      omega

/-- A call that reaches the loop with `size ≥ 10` and an output buffer shorter
than the first PCM block stores bytes outside the output buffer. -/
theorem handle_frame_overrun {Chan : Type} (env : Env Chan) (dec : GstG729Dec Chan)
    (buf omap : List guint8) (h : wrong_buffer_size (buffer_size buf) = false)
    (ha : env.gst_audio_decoder_allocate_output_buffer (requested_size (buffer_size buf)) =
      some omap)
    (h10 : 10 ≤ buffer_size buf)
    (hblk : omap.length <
      (env.bcg729Decoder dec.dec (buf.take 10) 10 false false false).2.length) :
    (gst_g729_dec_handle_frame env dec buf).overrun = true := by
  rw [handle_frame_finish env dec buf omap h ha]
  obtain ⟨m, hm⟩ := Nat.exists_eq_add_of_le
    (num_frames_pos _ (buffer_size_lt buf) ((wrong_buffer_size_eq_false _).1 h))
  simp only
  rw [hm, Nat.add_comm]
  show (frame_loop env buf m (loop_body env buf (loop_entry dec buf omap))).1.overrun = true
  apply frame_loop_overrun_mono
  simp only [loop_body, loop_entry, g729_decode, G729_FRAME_BYTES, ge_iff_le, h10, if_true]
  simp [call_bcg729Decoder, hblk]

theorem handle_frame_out_ptr {Chan : Type} (env : Env Chan) (dec : GstG729Dec Chan)
    (buf omap : List guint8) (h : wrong_buffer_size (buffer_size buf) = false)
    (ha : env.gst_audio_decoder_allocate_output_buffer (requested_size (buffer_size buf)) =
      some omap) :
    (gst_g729_dec_handle_frame env dec buf).cursor.map Cursor.out_ptr =
      some (160 * num_frames (buffer_size buf)) := by
  rw [handle_frame_finish env dec buf omap h ha]
  simp only [Option.map_some', frame_loop_out_ptr, loop_entry, Nat.zero_add]

theorem handle_frame_frame_lengths {Chan : Type} (env : Env Chan) (dec : GstG729Dec Chan)
    (buf omap : List guint8) (h : wrong_buffer_size (buffer_size buf) = false)
    (ha : env.gst_audio_decoder_allocate_output_buffer (requested_size (buffer_size buf)) =
      some omap) :
    ∀ f ∈ frames_of (gst_g729_dec_handle_frame env dec buf).trace,
      f.2 = 0 ∨ f.2 = 2 ∨ f.2 = 10 := by
  intro f hf
  rw [handle_frame_frames env dec buf omap h ha, List.mem_append] at hf
  rcases hf with hf | hf
  · obtain ⟨i, _, rfl⟩ := List.mem_map.1 hf
    exact Or.inr (Or.inr rfl)
  · split_ifs at hf
    · rw [List.mem_singleton] at hf
      subst hf
      exact Or.inr (Or.inl rfl)
    · rw [List.mem_singleton] at hf
      subst hf
      exact Or.inl rfl
    · cases hf

theorem handle_frame_loop_frames {Chan : Type} (env : Env Chan) (dec : GstG729Dec Chan)
    (buf omap : List guint8) (h : wrong_buffer_size (buffer_size buf) = false)
    (ha : env.gst_audio_decoder_allocate_output_buffer (requested_size (buffer_size buf)) =
      some omap) :
    frames_of (gst_g729_dec_handle_frame env dec buf).trace =
      loop_frames (num_frames (buffer_size buf))
        { in_ptr := 0, size := buffer_size buf, out_ptr := 0 } := by
  rw [handle_frame_finish env dec buf omap h ha]
  simp only [frames_of_append, frame_loop_frames, loop_entry]
  simp [frames_of]

/-- Output assembly when the allocation is exact: if the 32-bit product
`num_frames * RAW_FRAME_BYTES` does not wrap, the allocator returns a buffer of
the requested length and the primitive stores 320 bytes per call, then the
buffer handed downstream is the concatenation of the blocks of `decode_chain`,
the channel context is the one left by the last frame, nothing is stored outside
the buffer, and the write cursor ends at the end of the buffer. -/
theorem handle_frame_assembly {Chan : Type} (env : Env Chan) (dec : GstG729Dec Chan)
    (buf omap : List guint8) (h : wrong_buffer_size (buffer_size buf) = false)
    (ha : env.gst_audio_decoder_allocate_output_buffer (requested_size (buffer_size buf)) =
      some omap)
    (hsz : omap.length = requested_size (buffer_size buf))
    (hblk : ∀ c bs n e s r, (env.bcg729Decoder c bs n e s r).2.length = 320)
    (hnw : num_frames (buffer_size buf) * 320 < 4294967296) :
    (gst_g729_dec_handle_frame env dec buf).outbuf =
        some (decode_chain env buf
          (frames_of (gst_g729_dec_handle_frame env dec buf).trace) dec.dec).2 ∧
      (gst_g729_dec_handle_frame env dec buf).dec.dec =
        (decode_chain env buf
          (frames_of (gst_g729_dec_handle_frame env dec buf).trace) dec.dec).1 ∧
      (gst_g729_dec_handle_frame env dec buf).dec.vad = dec.vad ∧
      (gst_g729_dec_handle_frame env dec buf).overrun = false ∧
      (gst_g729_dec_handle_frame env dec buf).cursor.map (fun c => 2 * c.out_ptr) =
        some (num_frames (buffer_size buf) * 320) ∧
      omap.length = num_frames (buffer_size buf) * 320 := by
  have hlen : omap.length = num_frames (buffer_size buf) * 320 := by
    rw [hsz]
    unfold requested_size
    exact Nat.mod_eq_of_lt hnw
  have hlens := handle_frame_frame_lengths env dec buf omap h ha
  rw [handle_frame_loop_frames env dec buf omap h ha] at hlens ⊢
  have hasm := frame_loop_assembly env buf hblk (num_frames (buffer_size buf))
    (loop_entry dec buf omap) [] omap rfl rfl (by rw [hlen]; omega) hlens
  rw [handle_frame_finish env dec buf omap h ha]
  simp only [loop_entry] at hasm ⊢
  refine ⟨?_, hasm.2.1, ?_, hasm.2.2, ?_, hlen⟩
  · rw [hasm.1, List.drop_eq_nil_of_le (by rw [hlen]; omega)]
    simp
  · exact frame_loop_vad env buf _ _
  · simp only [Option.map_some', frame_loop_out_ptr]
    congr 1
    omega

theorem handle_frame_decodes_length {Chan : Type} (env : Env Chan) (dec : GstG729Dec Chan)
    (buf omap : List guint8) (h : wrong_buffer_size (buffer_size buf) = false)
    (ha : env.gst_audio_decoder_allocate_output_buffer (requested_size (buffer_size buf)) =
      some omap) :
    (decodes_of (gst_g729_dec_handle_frame env dec buf).trace).length =
      num_frames (buffer_size buf) := by
  rw [handle_frame_decodes env dec buf omap h ha,
    num_frames_eq _ (buffer_size_lt buf) ((wrong_buffer_size_eq_false _).1 h),
    List.length_append, List.length_map, List.length_range]
  split_ifs <;> rfl

theorem num_frames_eq_one (size : Nat) (hlt : size < 4294967296)
    (hacc : size % 10 = 0 ∨ size % 10 = 2) :
    num_frames size = 1 ↔ size = 0 ∨ size = 2 ∨ size = 10 := by
  rw [num_frames_eq size hlt hacc]
  split_ifs <;> omega

theorem frames_closed_getElem (k : Nat) (tail : List (Nat × Nat)) (htail : tail.length ≤ 1)
    (i : Nat) (f : Nat × Nat)
    (h : ((List.range k).map (fun j => (10 * j, 10)) ++ tail)[i]? = some f) :
    (i < k ∧ f = (10 * i, 10)) ∨ (i = k ∧ tail = [f]) := by
  by_cases hik : i < k
  · left
    rw [List.getElem?_append_left (by simpa using hik)] at h
    rw [List.getElem?_map, List.getElem?_range hik] at h
    simp only [Option.map_some', Option.some.injEq] at h
    exact ⟨hik, h.symm⟩
  · right
    rw [List.getElem?_append_right (by simpa using hik)] at h
    simp only [List.length_map, List.length_range] at h
    match tail, htail, h with
    | [], _, h => simp at h
    | [g], _, h =>
      have hz : i - k = 0 := by
        by_contra hne
        obtain ⟨m, hm⟩ := Nat.exists_eq_succ_of_ne_zero hne
        rw [hm] at h
        simp at h
      rw [hz] at h
      simp only [List.getElem?_cons_zero, Option.some.injEq] at h
      exact ⟨by omega, by rw [h]⟩

/-- Frame `i` of a call that reaches the loop on an input shorter than `2 ^ 32`
bytes starts at offset `10 * i` and has length `min 10 (L - 10 * i)`. -/
theorem handle_frame_frame_at {Chan : Type} (env : Env Chan) (dec : GstG729Dec Chan)
    (buf omap : List guint8) (hL : buf.length < 4294967296)
    (h : wrong_buffer_size (buffer_size buf) = false)
    (ha : env.gst_audio_decoder_allocate_output_buffer (requested_size (buffer_size buf)) =
      some omap)
    (i : Nat) (f : Nat × Nat)
    (hf : (frames_of (gst_g729_dec_handle_frame env dec buf).trace)[i]? = some f) :
    i < num_frames buf.length ∧ 10 * i ≤ buf.length ∧ f.1 = 10 * i ∧
      f.2 = min 10 (buf.length - 10 * i) := by
  have hacc := (wrong_buffer_size_eq_false _).1 h
  rw [handle_frame_frames env dec buf omap h ha] at hf
  rw [buffer_size_of_lt buf hL] at hf hacc
  have hnf := num_frames_eq _ hL hacc
  rcases frames_closed_getElem _ _ (by split_ifs <;> simp) i f hf with ⟨hik, rfl⟩ | ⟨hik, ht⟩
  · refine ⟨by omega, by omega, rfl, ?_⟩
    show 10 = min 10 (buf.length - 10 * i)
    omega
  · split_ifs at ht with h2 h0
    · simp only [List.cons.injEq, and_true] at ht
      subst ht
      rw [if_pos h2] at hnf
      refine ⟨by omega, by omega, by rw [hik], ?_⟩
      show 2 = min 10 (buf.length - 10 * i)
      omega
    · simp only [List.cons.injEq, and_true] at ht
      subst ht
      rw [if_neg h2, if_pos h0] at hnf
      refine ⟨by omega, by omega, by show 0 = 10 * i; omega, ?_⟩
      show 0 = min 10 (buf.length - 10 * i)
      omega

theorem handle_frame_frames_length {Chan : Type} (env : Env Chan) (dec : GstG729Dec Chan)
    (buf omap : List guint8) (h : wrong_buffer_size (buffer_size buf) = false)
    (ha : env.gst_audio_decoder_allocate_output_buffer (requested_size (buffer_size buf)) =
      some omap) :
    (frames_of (gst_g729_dec_handle_frame env dec buf).trace).length =
      num_frames (buffer_size buf) := by
  rw [handle_frame_frames env dec buf omap h ha,
    num_frames_eq _ (buffer_size_lt buf) ((wrong_buffer_size_eq_false _).1 h),
    List.length_append, List.length_map, List.length_range]
  split_ifs <;> rfl

theorem handle_frame_frames_sum {Chan : Type} (env : Env Chan) (dec : GstG729Dec Chan)
    (buf omap : List guint8) (h : wrong_buffer_size (buffer_size buf) = false)
    (ha : env.gst_audio_decoder_allocate_output_buffer (requested_size (buffer_size buf)) =
      some omap) :
    ((frames_of (gst_g729_dec_handle_frame env dec buf).trace).map Prod.snd).sum =
      buffer_size buf := by
  have hacc := (wrong_buffer_size_eq_false _).1 h
  rw [handle_frame_frames env dec buf omap h ha]
  simp only [List.map_append, List.map_map, List.sum_append]
  have hs : (List.map (Prod.snd ∘ fun i => (10 * i, 10)) (List.range (buffer_size buf / 10))).sum
      = 10 * (buffer_size buf / 10) := by
    induction (buffer_size buf / 10) with
    | zero => rfl
    | succ n ih =>
      rw [List.range_succ, List.map_append, List.sum_append, ih]
      simp
      omega
  rw [hs]
  split_ifs with h2 h0
  · simp
    omega
  · simp
    omega
  · simp
    omega

theorem handle_frame_frame_bound {Chan : Type} (env : Env Chan) (dec : GstG729Dec Chan)
    (buf omap : List guint8) (h : wrong_buffer_size (buffer_size buf) = false)
    (ha : env.gst_audio_decoder_allocate_output_buffer (requested_size (buffer_size buf)) =
      some omap) :
    ∀ f ∈ frames_of (gst_g729_dec_handle_frame env dec buf).trace,
      f.1 + f.2 ≤ buffer_size buf := by
  intro f hf
  rw [handle_frame_frames env dec buf omap h ha, List.mem_append] at hf
  rcases hf with hf | hf
  · obtain ⟨i, hi, rfl⟩ := List.mem_map.1 hf
    rw [List.mem_range] at hi
    show 10 * i + 10 ≤ buffer_size buf
    omega
  · split_ifs at hf with h2 h0
    · rw [List.mem_singleton] at hf
      subst hf
      show 10 * (buffer_size buf / 10) + 2 ≤ buffer_size buf
      omega
    · rw [List.mem_singleton] at hf
      subst hf
      exact Nat.zero_le _
    · cases hf

theorem buffer_size_le (buf : List guint8) : buffer_size buf ≤ buf.length := by
  unfold buffer_size
  exact Nat.mod_le _ _

theorem frame_loop_final_size {Chan : Type} (env : Env Chan) (imap : List guint8)
    (st : Session Chan × Cursor) (hlt : st.2.size < 4294967296)
    (hacc : st.2.size % 10 = 0 ∨ st.2.size % 10 = 2) :
    (frame_loop env imap (num_frames st.2.size) st).2.size =
      if st.2.size % 10 = 2 then 4294967288
      else if st.2.size = 0 then 4294967286 else 0 := by
  by_cases h0 : st.2.size = 0
  · rw [h0, num_frames_zero]
    show (loop_body env imap st).2.size = _
    simp only [loop_body, h0]
    rfl
  · rcases hacc with h | h
    · rw [num_frames_voice _ h0 h, frame_loop_size env imap _ st hlt (by omega),
        if_neg (by omega), if_neg h0]
      omega
    · rw [num_frames_sid _ hlt h, frame_loop_succ, if_pos h]
      simp only [loop_body, G729_FRAME_BYTES, GUINT_RANGE]
      rw [frame_loop_size env imap _ st hlt (by omega)]
      omega

theorem instance_eq {Chan : Type} (x y : GstG729Dec Chan) (h1 : x.vad = y.vad)
    (h2 : x.dec = y.dec) : x = y := by
  cases x
  cases y
  simp only [GstG729Dec.mk.injEq]
  exact ⟨h1, h2⟩

theorem num_frames_no_wrap (size : Nat) (hacc : size % 10 = 0 ∨ size % 10 = 2)
    (hle : size ≤ 134217720) : num_frames size * 320 < 4294967296 := by
  rw [num_frames_eq size (by omega) hacc]
  split_ifs <;> omega

theorem decode_chain_append {Chan : Type} (env : Env Chan) (imap : List guint8)
    (f1 f2 : List (Nat × Nat)) (c : Chan) :
    decode_chain env imap (f1 ++ f2) c =
      ((decode_chain env imap f2 (decode_chain env imap f1 c).1).1,
        (decode_chain env imap f1 c).2 ++
          (decode_chain env imap f2 (decode_chain env imap f1 c).1).2) := by
  induction f1 generalizing c with
  | nil => simp [decode_chain]
  | cons f t ih =>
    show decode_chain env imap (f :: (t ++ f2)) c = _
    simp only [decode_chain, ih, List.append_assoc]

theorem decode_chain_left {Chan : Type} (env : Env Chan) (A B : List guint8)
    (fs : List (Nat × Nat)) (c : Chan) (hin : ∀ f ∈ fs, f.1 + f.2 ≤ A.length) :
    decode_chain env (A ++ B) fs c = decode_chain env A fs c := by
  induction fs generalizing c with
  | nil => rfl
  | cons f t ih =>
    have hf := hin f (List.mem_cons_self _ _)
    have hs : ((A ++ B).drop f.1).take f.2 = (A.drop f.1).take f.2 := by
      rw [List.drop_append_of_le_length (by omega),
        List.take_append_of_le_length (by rw [List.length_drop]; omega)]
    simp only [decode_chain, hs]
    rw [ih _ (fun g hg => hin g (List.mem_cons_of_mem _ hg))]

theorem decode_chain_right {Chan : Type} (env : Env Chan) (A B : List guint8)
    (fs : List (Nat × Nat)) (c : Chan) :
    decode_chain env (A ++ B) (fs.map (fun f => (A.length + f.1, f.2))) c =
      decode_chain env B fs c := by
  induction fs generalizing c with
  | nil => rfl
  | cons f t ih =>
    simp only [List.map_cons, decode_chain, List.drop_append, ih]

theorem accepted_frames_append (a L : Nat) (ha : 1 ≤ a) (hL : 0 < L) :
    accepted_frames (10 * a + L) =
      accepted_frames (10 * a) ++ (accepted_frames L).map (fun f => (10 * a + f.1, f.2)) := by
  unfold accepted_frames
  have h1 : (10 * a + L) / 10 = a + L / 10 := by omega
  have h2 : (10 * a + L) % 10 = L % 10 := by omega
  have h3 : 10 * a / 10 = a := by omega
  have h4 : ¬ (10 * a % 10 = 2) := by omega
  rw [h1, h2, h3, if_neg h4, if_neg (by omega : ¬ 10 * a = 0), List.append_nil,
    List.range_add, List.map_append, List.map_map, List.append_assoc, List.map_append,
    List.map_map]
  congr 2
  · apply List.map_congr_left
    intro i _
    simp only [Function.comp_apply, Prod.mk.injEq, and_true]
    omega
  · by_cases h5 : L % 10 = 2
    · rw [if_pos h5, if_pos h5]
      simp only [List.map_cons, List.map_nil, List.cons.injEq, Prod.mk.injEq, and_true]
      omega
    · rw [if_neg h5, if_neg h5, if_neg (by omega : ¬ 10 * a + L = 0),
        if_neg (by omega : ¬ L = 0)]
      rfl

theorem handle_frame_accepted_frames {Chan : Type} (env : Env Chan) (dec : GstG729Dec Chan)
    (buf omap : List guint8) (h : wrong_buffer_size (buffer_size buf) = false)
    (ha : env.gst_audio_decoder_allocate_output_buffer (requested_size (buffer_size buf)) =
      some omap) :
    frames_of (gst_g729_dec_handle_frame env dec buf).trace =
      accepted_frames (buffer_size buf) :=
  handle_frame_frames env dec buf omap h ha

/-- With an allocator that always returns a buffer of the requested length and a
primitive that stores 320 bytes per call, a call on an accepted input of at
most 134217720 bytes hands downstream the concatenation of the blocks of
`decode_chain` and leaves the channel context of `decode_chain`. -/
theorem handle_frame_output {Chan : Type} (env : Env Chan) (dec : GstG729Dec Chan)
    (buf : List guint8)
    (halloc : ∀ n, ∃ omap, env.gst_audio_decoder_allocate_output_buffer n = some omap ∧
      omap.length = n)
    (hblk : ∀ c bs n e s r, (env.bcg729Decoder c bs n e s r).2.length = 320)
    (hacc : buf.length % 10 = 0 ∨ buf.length % 10 = 2) (hle : buf.length ≤ 134217720) :
    (gst_g729_dec_handle_frame env dec buf).outbuf =
        some (decode_chain env buf (accepted_frames buf.length) dec.dec).2 ∧
      (gst_g729_dec_handle_frame env dec buf).dec =
        { vad := dec.vad,
          dec := (decode_chain env buf (accepted_frames buf.length) dec.dec).1 } := by
  have hb := buffer_size_of_lt buf (by omega)
  have hok : wrong_buffer_size (buffer_size buf) = false := by
    rw [hb]
    exact (wrong_buffer_size_eq_false _).2 hacc
  obtain ⟨omap, ha, hsz⟩ := halloc (requested_size (buffer_size buf))
  have hasm := handle_frame_assembly env dec buf omap hok ha hsz hblk
    (by rw [hb]; exact num_frames_no_wrap _ hacc hle)
  rw [handle_frame_accepted_frames env dec buf omap hok ha, hb] at hasm
  exact ⟨hasm.1, instance_eq _ _ hasm.2.2.1 hasm.2.1⟩

theorem accepted_frames_bound (L : Nat) : ∀ f ∈ accepted_frames L, f.1 + f.2 ≤ L := by
  intro f hf
  unfold accepted_frames at hf
  rw [List.mem_append] at hf
  rcases hf with hf | hf
  · obtain ⟨i, hi, rfl⟩ := List.mem_map.1 hf
    rw [List.mem_range] at hi
    show 10 * i + 10 ≤ L
    omega
  · split_ifs at hf with h2 h0
    · rw [List.mem_singleton] at hf
      subst hf
      show 10 * (L / 10) + 2 ≤ L
      omega
    · rw [List.mem_singleton] at hf
      subst hf
      exact Nat.zero_le _
    · cases hf

theorem buffer_size_replicate_append (n m : Nat) (a b : guint8) :
    buffer_size (List.replicate n a ++ List.replicate m b) = (n + m) % 4294967296 := by
  unfold buffer_size
  rw [List.length_append, List.length_replicate, List.length_replicate]

theorem close_count_append (a b : List ChannelUse) :
    close_count (a ++ b) = close_count a + close_count b := by
  induction a with
  | nil => simp [close_count]
  | cons e t ih =>
    cases e with
    | init => exact ih
    | decode o => exact ih
    | close o =>
      show close_count (t ++ b) + 1 = close_count t + 1 + close_count b
      rw [ih]
      omega

theorem close_count_decodes (l : List Event) (b : Bool) :
    close_count (l.map (fun _ => ChannelUse.decode b)) = 0 := by
  induction l with
  | nil => rfl
  | cons e t ih => simpa [close_count] using ih

theorem run_calls_frames_open {Chan : Type} (env : Env Chan) (bufs : List (List guint8))
    (el : Element Chan) (hopen : el.is_open = true)
    (hall : el.uses.all on_open_channel = true) :
    (run_calls env (bufs.map Call.handle_frame) el).is_open = true ∧
      (run_calls env (bufs.map Call.handle_frame) el).uses.all on_open_channel = true ∧
      close_count (run_calls env (bufs.map Call.handle_frame) el).uses =
        close_count el.uses := by
  induction bufs generalizing el with
  | nil => exact ⟨hopen, hall, rfl⟩
  | cons b t ih =>
    have h := ih (element_handle_frame env el b).1 hopen
      (by
        simp only [element_handle_frame, List.all_append, hall, Bool.true_and, hopen]
        simp [on_open_channel])
    refine ⟨h.1, h.2.1, ?_⟩
    rw [show run_calls env ((b :: t).map Call.handle_frame) el =
      run_calls env (t.map Call.handle_frame) (element_handle_frame env el b).1 from rfl, h.2.2]
    simp only [element_handle_frame, close_count_append, close_count_decodes, Nat.add_zero]

theorem run_calls_append {Chan : Type} (env : Env Chan) (c1 c2 : List Call)
    (el : Element Chan) :
    run_calls env (c1 ++ c2) el = run_calls env c2 (run_calls env c1 el) := by
  induction c1 generalizing el with
  | nil => rfl
  | cons c t ih =>
    cases c with
    | handle_frame buf => exact ih _
    | stop => exact ih _

/-- Up to 134217720 bytes the requested size is exact: for every input length
`L ≤ 134217720` with `L mod 10 ∈ {0, 2}`, `gst_g729_dec_handle_frame` does not take
the wrong-buffer-size branch and asks the allocator exactly once, for `320` bytes
when `L = 0` and for `(L div 10 + (1 if L mod 10 = 2 else 0)) * 320` bytes when
`L > 0`. -/
theorem handle_frame_requested_size {Chan : Type} (env : Env Chan) (dec : GstG729Dec Chan)
    (buf : List guint8) (hacc : buf.length % 10 = 0 ∨ buf.length % 10 = 2)
    (hL : buf.length ≤ 134217720) :
    (gst_g729_dec_handle_frame env dec buf).exit ≠ Exit.wrong_buffer_size ∧
      allocations_of (gst_g729_dec_handle_frame env dec buf).trace =
        [if buf.length = 0 then 320
         else (buf.length / 10 + (if buf.length % 10 = 2 then 1 else 0)) * 320] := by
  have hb : buffer_size buf = buf.length := buffer_size_of_lt buf (by omega)
  have hok : wrong_buffer_size (buffer_size buf) = false := by
    rw [hb]
    exact (wrong_buffer_size_eq_false _).2 hacc
  refine ⟨?_, ?_⟩
  · rw [Ne, handle_frame_exit, hok]
    simp
  · rw [handle_frame_allocations env dec buf hok, hb, requested_size_exact _ hacc hL]

/-- Allocation policy. For every input that passes the size check: the first
external call is the request for an output buffer of `num_frames *
RAW_FRAME_BYTES` bytes, the product being taken modulo `2 ^ 32` as in line 201,
and no other request follows; if that request
returns no buffer, the call returns `GST_FLOW_OK`, the request is the only
external call (the codec primitive is not invoked), nothing is handed
downstream and the instance is unchanged. -/
theorem handle_frame_allocation_failure {Chan : Type} (env : Env Chan) (dec : GstG729Dec Chan)
    (buf : List guint8)
    (hacc : (gst_g729_dec_handle_frame env dec buf).exit ≠ Exit.wrong_buffer_size) :
    (∃ rest, (gst_g729_dec_handle_frame env dec buf).trace =
        Event.allocate_output_buffer ((num_frames (buffer_size buf) * 320) % 4294967296) :: rest ∧
        allocations_of rest = []) ∧
      (env.gst_audio_decoder_allocate_output_buffer
          ((num_frames (buffer_size buf) * 320) % 4294967296) = none →
        (gst_g729_dec_handle_frame env dec buf).ret = GstFlowReturn.GST_FLOW_OK ∧
          (gst_g729_dec_handle_frame env dec buf).exit = Exit.no_output_buffer ∧
          (gst_g729_dec_handle_frame env dec buf).trace =
            [Event.allocate_output_buffer ((num_frames (buffer_size buf) * 320) % 4294967296)] ∧
          decodes_of (gst_g729_dec_handle_frame env dec buf).trace = [] ∧
          (gst_g729_dec_handle_frame env dec buf).outbuf = none ∧
          (gst_g729_dec_handle_frame env dec buf).dec = dec) := by
  have hok : wrong_buffer_size (buffer_size buf) = false := by
    rw [Ne, handle_frame_exit] at hacc
    simpa using hacc
  have hreq : (num_frames (buffer_size buf) * 320) % 4294967296 =
      requested_size (buffer_size buf) := rfl
  rw [hreq]
  refine ⟨?_, ?_⟩
  · cases ha : env.gst_audio_decoder_allocate_output_buffer
        (requested_size (buffer_size buf)) with
    | none =>
      rw [handle_frame_no_buffer env dec buf hok ha]
      exact ⟨[], rfl, rfl⟩
    | some omap =>
      have hal := handle_frame_allocations env dec buf hok
      rw [handle_frame_finish env dec buf omap hok ha] at hal ⊢
      obtain ⟨ext, hext⟩ := frame_loop_trace_prefix env buf (num_frames (buffer_size buf))
        (loop_entry dec buf omap)
      simp only at hal ⊢
      rw [hext] at hal ⊢
      refine ⟨ext ++ [Event.finish_frame _], rfl, ?_⟩
      simpa [loop_entry, allocations_of_append, allocations_of] using hal
  · intro ha
    rw [handle_frame_no_buffer env dec buf hok ha]
    exact ⟨rfl, rfl, rfl, rfl, rfl, rfl⟩

/-- Sessions that stop last. In every sequence of operations on one instance that starts with
`gst_g729_dec_init`, continues with any number of `gst_g729_dec_handle_frame`
calls and ends with at most one `gst_g729_dec_stop` call, every use of the
channel (by the codec primitive or by `closeBcg729DecoderChannel`) finds it
open, and the channel is closed at most once. -/
theorem run_calls_session {Chan : Type} (env : Env Chan) (initBcg729DecoderChannel : Chan)
    (bufs : List (List guint8)) (stops : List Call)
    (hstops : stops = [] ∨ stops = [Call.stop]) :
    (run_calls env (bufs.map Call.handle_frame ++ stops)
        (gst_g729_dec_init initBcg729DecoderChannel)).uses.all on_open_channel = true ∧
      close_count (run_calls env (bufs.map Call.handle_frame ++ stops)
        (gst_g729_dec_init initBcg729DecoderChannel)).uses ≤ 1 := by
  have h := run_calls_frames_open env bufs (gst_g729_dec_init initBcg729DecoderChannel) rfl rfl
  rw [run_calls_append]
  rcases hstops with hs | hs
  · subst hs
    refine ⟨h.2.1, ?_⟩
    show close_count (run_calls env (bufs.map Call.handle_frame) _).uses ≤ 1
    rw [h.2.2]
    exact Nat.zero_le 1
  · subst hs
    show (gst_g729_dec_stop _).1.uses.all on_open_channel = true ∧
      close_count (gst_g729_dec_stop _).1.uses ≤ 1
    simp only [gst_g729_dec_stop, List.all_append, h.2.1, h.1, close_count_append, h.2.2]
    simp [on_open_channel, close_count, gst_g729_dec_init]

/-! ## The claims -/

/-- C1, evaluated at an input of 134217722 bytes. Its length has remainder 2 modulo
10 and the call does not take the wrong-buffer-size branch, but the size asked of
the allocator is 64, whereas `(L div 10 + 1) * 320 = 4294967360`: the 32-bit
product `num_frames * RAW_FRAME_BYTES` of line 201 has wrapped. -/
theorem C1_failing_input :
    (List.replicate 134217722 (0 : guint8)).length % 10 = 2 ∧
      (gst_g729_dec_handle_frame demo ⟨0, 0⟩ (List.replicate 134217722 0)).exit =
        Exit.finish_frame ∧
      num_frames (buffer_size (List.replicate 134217722 0)) = 13421773 ∧
      allocations_of
        (gst_g729_dec_handle_frame demo ⟨0, 0⟩ (List.replicate 134217722 0)).trace = [64] ∧
      ((List.replicate 134217722 (0 : guint8)).length / 10 +
        (if (List.replicate 134217722 (0 : guint8)).length % 10 = 2 then 1 else 0)) * 320 =
        4294967360 := by
  have hb : buffer_size (List.replicate 134217722 0) = 134217722 :=
    (buffer_size_replicate 134217722 0).trans (by decide)
  have hok : wrong_buffer_size (buffer_size (List.replicate 134217722 0)) = false := by
    rw [hb]
    decide
  refine ⟨?_, ?_, ?_, ?_, ?_⟩
  · rw [List.length_replicate]
  · rw [handle_frame_finish demo ⟨0, 0⟩ _ _ hok rfl]
  · rw [hb]
    decide
  · rw [handle_frame_allocations demo ⟨0, 0⟩ _ hok, hb]
    decide
  · rw [List.length_replicate]
    decide

/-- C2 (amended). For every input length `L < 2 ^ 32` (the range of the `guint`
variable `size`), `gst_g729_dec_handle_frame` leaves through the wrong-buffer-size
branch if and only if `L mod 10` is neither 0 nor 2, and that branch returns
`GST_FLOW_ERROR`. -/
theorem C2_size_check {Chan : Type} (env : Env Chan) (dec : GstG729Dec Chan)
    (buf : List guint8) (hL : buf.length < 4294967296) :
    ((gst_g729_dec_handle_frame env dec buf).exit = Exit.wrong_buffer_size ↔
        ¬ (buf.length % 10 = 0 ∨ buf.length % 10 = 2)) ∧
      ((gst_g729_dec_handle_frame env dec buf).exit = Exit.wrong_buffer_size →
        (gst_g729_dec_handle_frame env dec buf).ret = GstFlowReturn.GST_FLOW_ERROR) := by
  refine ⟨?_, ?_⟩
  · rw [handle_frame_exit, wrong_buffer_size_eq_true, buffer_size_of_lt buf hL]
  · intro h
    rw [handle_frame_wrong env dec buf ((handle_frame_exit env dec buf).1 h)]

/-- C2, an instance: a 21-byte input is rejected with `GST_FLOW_ERROR`. -/
theorem C2_size_check_witness :
    (List.replicate 21 7).length < 4294967296 ∧
      (((gst_g729_dec_handle_frame demo ⟨0, 0⟩ (List.replicate 21 7)).exit =
            Exit.wrong_buffer_size ↔
          ¬ ((List.replicate 21 7).length % 10 = 0 ∨ (List.replicate 21 7).length % 10 = 2)) ∧
        ((gst_g729_dec_handle_frame demo ⟨0, 0⟩ (List.replicate 21 7)).exit =
            Exit.wrong_buffer_size →
          (gst_g729_dec_handle_frame demo ⟨0, 0⟩ (List.replicate 21 7)).ret =
            GstFlowReturn.GST_FLOW_ERROR)) :=
  ⟨by decide, C2_size_check demo ⟨0, 0⟩ (List.replicate 21 7) (by decide)⟩

/-- C2 as stated fails beyond the 32-bit range of `size`: an input of
4294967306 bytes has remainder 6 modulo 10 and is not rejected (`size` is 10),
and an input of 4294967300 bytes has remainder 0 and is rejected (`size` is 4). -/
theorem C2_counterexample :
    ((List.replicate 4294967306 (0 : guint8)).length % 10 = 6 ∧
      (gst_g729_dec_handle_frame demo ⟨0, 0⟩ (List.replicate 4294967306 0)).exit ≠
        Exit.wrong_buffer_size) ∧
    ((List.replicate 4294967300 (0 : guint8)).length % 10 = 0 ∧
      (gst_g729_dec_handle_frame demo ⟨0, 0⟩ (List.replicate 4294967300 0)).exit =
        Exit.wrong_buffer_size) := by
  have hb : buffer_size (List.replicate 4294967306 0) = 10 :=
    (buffer_size_replicate 4294967306 0).trans (by decide)
  have hb2 : buffer_size (List.replicate 4294967300 0) = 4 :=
    (buffer_size_replicate 4294967300 0).trans (by decide)
  refine ⟨⟨?_, ?_⟩, ?_, ?_⟩
  · rw [List.length_replicate]
  · rw [Ne, handle_frame_exit, hb]
    decide
  · rw [List.length_replicate]
  · rw [handle_frame_exit, hb2]
    decide

/-- C3 (amended). For every input whose length `L < 2 ^ 32` has `L mod 10` outside
`{0, 2}`, `gst_g729_dec_handle_frame` calls no external service at all (no output
buffer is requested, the codec primitive is not invoked), hands nothing downstream,
and leaves the instance (channel context and `vad`) as it was. -/
theorem C3_rejection_atomic {Chan : Type} (env : Env Chan) (dec : GstG729Dec Chan)
    (buf : List guint8) (hL : buf.length < 4294967296)
    (hrej : ¬ (buf.length % 10 = 0 ∨ buf.length % 10 = 2)) :
    (gst_g729_dec_handle_frame env dec buf).trace = [] ∧
      allocations_of (gst_g729_dec_handle_frame env dec buf).trace = [] ∧
      decodes_of (gst_g729_dec_handle_frame env dec buf).trace = [] ∧
      (gst_g729_dec_handle_frame env dec buf).outbuf = none ∧
      (gst_g729_dec_handle_frame env dec buf).dec = dec ∧
      (gst_g729_dec_handle_frame env dec buf).ret = GstFlowReturn.GST_FLOW_ERROR := by
  have h : wrong_buffer_size (buffer_size buf) = true := by
    rw [wrong_buffer_size_eq_true, buffer_size_of_lt buf hL]
    exact hrej
  rw [handle_frame_wrong env dec buf h]
  exact ⟨rfl, rfl, rfl, rfl, rfl, rfl⟩

/-- C3, an instance: a 21-byte input leaves the instance `⟨5, 3⟩` untouched. -/
theorem C3_rejection_atomic_witness :
    (List.replicate 21 7).length < 4294967296 ∧
      ¬ ((List.replicate 21 7).length % 10 = 0 ∨ (List.replicate 21 7).length % 10 = 2) ∧
      (gst_g729_dec_handle_frame demo ⟨5, 3⟩ (List.replicate 21 7)).trace = [] ∧
      allocations_of (gst_g729_dec_handle_frame demo ⟨5, 3⟩ (List.replicate 21 7)).trace = [] ∧
      decodes_of (gst_g729_dec_handle_frame demo ⟨5, 3⟩ (List.replicate 21 7)).trace = [] ∧
      (gst_g729_dec_handle_frame demo ⟨5, 3⟩ (List.replicate 21 7)).outbuf = none ∧
      (gst_g729_dec_handle_frame demo ⟨5, 3⟩ (List.replicate 21 7)).dec = ⟨5, 3⟩ ∧
      (gst_g729_dec_handle_frame demo ⟨5, 3⟩ (List.replicate 21 7)).ret =
        GstFlowReturn.GST_FLOW_ERROR :=
  ⟨by decide, by decide,
    C3_rejection_atomic demo ⟨5, 3⟩ (List.replicate 21 7) (by decide) (by decide)⟩

/-- C3 as stated fails beyond the 32-bit range of `size`: an input of 4294967306
bytes has remainder 6 modulo 10, yet `size` is 10, so 320 bytes are requested, the
codec primitive is invoked once and the channel context changes (here from 0 to 1). -/
theorem C3_counterexample :
    (List.replicate 4294967306 (0 : guint8)).length % 10 = 6 ∧
      allocations_of
        (gst_g729_dec_handle_frame demo ⟨0, 0⟩ (List.replicate 4294967306 0)).trace = [320] ∧
      (decodes_of
        (gst_g729_dec_handle_frame demo ⟨0, 0⟩
          (List.replicate 4294967306 0)).trace).length = 1 ∧
      (gst_g729_dec_handle_frame demo ⟨0, 0⟩ (List.replicate 4294967306 0)).dec.dec = 1 := by
  have hb : buffer_size (List.replicate 4294967306 0) = 10 :=
    (buffer_size_replicate 4294967306 0).trans (by decide)
  have hok : wrong_buffer_size (buffer_size (List.replicate 4294967306 0)) = false := by
    rw [hb]
    decide
  refine ⟨?_, ?_, ?_, ?_⟩
  · rw [List.length_replicate]
  · rw [handle_frame_allocations demo ⟨0, 0⟩ _ hok, hb]
    decide
  · rw [handle_frame_decodes demo ⟨0, 0⟩ _
      (List.replicate (requested_size (buffer_size (List.replicate 4294967306 0))) 0) hok rfl,
      hb, List.length_append, List.length_map, List.length_range]
    rfl
  · rw [handle_frame_one_voice demo ⟨0, 0⟩ _ (List.replicate 320 0) hb rfl]
    rfl

/-- C4 (amended). In a call of `gst_g729_dec_handle_frame` that reaches the frame
loop, on an input of length `L < 2 ^ 32`: if `L = 10 * k` with `k ≥ 1` the frames
handed to `g729_decode` are `k` frames of length 10; if `L = 10 * k + 2` they are
`k` frames of length 10 followed by one frame of length 2; if `L = 0` there is one
frame of length 0. Frame `i` starts at input offset `10 * i`. -/
theorem C4_frame_sequence {Chan : Type} (env : Env Chan) (dec : GstG729Dec Chan)
    (buf : List guint8) (hL : buf.length < 4294967296)
    (hfin : (gst_g729_dec_handle_frame env dec buf).exit = Exit.finish_frame) :
    (∀ k, 1 ≤ k → buf.length = 10 * k →
        frames_of (gst_g729_dec_handle_frame env dec buf).trace =
          (List.range k).map (fun i => (10 * i, 10))) ∧
      (∀ k, buf.length = 10 * k + 2 →
        frames_of (gst_g729_dec_handle_frame env dec buf).trace =
          (List.range k).map (fun i => (10 * i, 10)) ++ [(10 * k, 2)]) ∧
      (buf.length = 0 →
        frames_of (gst_g729_dec_handle_frame env dec buf).trace = [(0, 0)]) := by
  obtain ⟨hok, omap, ha⟩ := handle_frame_reaches_loop env dec buf hfin
  have hfr := handle_frame_frames env dec buf omap hok ha
  rw [buffer_size_of_lt buf hL] at hfr
  refine ⟨?_, ?_, ?_⟩
  · intro k hk hlen
    rw [hfr, if_neg (by omega), if_neg (by omega), List.append_nil]
    have hd : buf.length / 10 = k := by omega
    rw [hd]
  · intro k hlen
    rw [hfr, if_pos (by omega)]
    have hd : buf.length / 10 = k := by omega
    rw [hd]
  · intro hlen
    rw [hfr, hlen]
    rfl

/-- C4, an instance: a 12-byte input gives one voice frame at offset 0 and one
SID frame at offset 10. -/
theorem C4_frame_sequence_witness :
    (List.replicate 12 7).length < 4294967296 ∧
      (gst_g729_dec_handle_frame demo ⟨0, 0⟩ (List.replicate 12 7)).exit = Exit.finish_frame ∧
      frames_of (gst_g729_dec_handle_frame demo ⟨0, 0⟩ (List.replicate 12 7)).trace =
        [(0, 10), (10, 2)] :=
  ⟨by decide, by decide,
    (C4_frame_sequence demo ⟨0, 0⟩ (List.replicate 12 7) (by decide) (by decide)).2.1 1
      (by decide)⟩

/-- C4 as stated fails beyond the 32-bit range of `size`: an input of
`10 * 429496730` bytes is rejected (`size` is 4), so no frame is produced at all. -/
theorem C4_counterexample :
    (List.replicate 4294967300 (0 : guint8)).length = 10 * 429496730 ∧
      (gst_g729_dec_handle_frame demo ⟨0, 0⟩ (List.replicate 4294967300 0)).exit =
        Exit.wrong_buffer_size ∧
      frames_of (gst_g729_dec_handle_frame demo ⟨0, 0⟩ (List.replicate 4294967300 0)).trace =
        [] := by
  have hb : buffer_size (List.replicate 4294967300 0) = 4 :=
    (buffer_size_replicate 4294967300 0).trans (by decide)
  have hw : wrong_buffer_size (buffer_size (List.replicate 4294967300 0)) = true := by
    rw [hb]
    decide
  refine ⟨?_, ?_, ?_⟩
  · rw [List.length_replicate]
  · rw [handle_frame_wrong demo ⟨0, 0⟩ _ hw]
  · rw [handle_frame_wrong demo ⟨0, 0⟩ _ hw]
    rfl

/-- C5. `g729_decode` maps the frame length to the flags (erasure, SID, RFC 3389)
as in the table: length 10 gives `(false, false, false)`, length 2 gives
`(false, true, false)`, length 0 gives `(true, false, true)`. In each case the
primitive is invoked once, on the channel context of the instance, with the
same length that selected the case, and its channel result is stored back. The
three triples are pairwise distinct. -/
theorem C5_decode_parameters {Chan : Type} (env : Env Chan) (s : Session Chan)
    (imap : List guint8) (p q : Nat) :
    (decodes_of (g729_decode env s imap p 10 q).1.trace =
        decodes_of s.trace ++
          [Event.bcg729Decoder p ((imap.drop p).take 10) 10 false false false] ∧
      (g729_decode env s imap p 10 q).1.dec.dec =
        (env.bcg729Decoder s.dec.dec ((imap.drop p).take 10) 10 false false false).1) ∧
    (decodes_of (g729_decode env s imap p 2 q).1.trace =
        decodes_of s.trace ++
          [Event.bcg729Decoder p ((imap.drop p).take 2) 2 false true false] ∧
      (g729_decode env s imap p 2 q).1.dec.dec =
        (env.bcg729Decoder s.dec.dec ((imap.drop p).take 2) 2 false true false).1) ∧
    (decodes_of (g729_decode env s imap p 0 q).1.trace =
        decodes_of s.trace ++
          [Event.bcg729Decoder p ((imap.drop p).take 0) 0 true false true] ∧
      (g729_decode env s imap p 0 q).1.dec.dec =
        (env.bcg729Decoder s.dec.dec ((imap.drop p).take 0) 0 true false true).1) ∧
    ((false, false, false) ≠ (false, true, false) ∧
      (false, false, false) ≠ (true, false, true) ∧
      (false, true, false) ≠ (true, false, true)) := by
  refine ⟨⟨?_, ?_⟩, ⟨?_, ?_⟩, ⟨?_, ?_⟩, by decide⟩
  · rw [g729_decode_decodes]; rfl
  · simp [g729_decode, call_bcg729Decoder]
  · rw [g729_decode_decodes]; rfl
  · simp [g729_decode, call_bcg729Decoder]
  · rw [g729_decode_decodes]; rfl
  · simp [g729_decode, call_bcg729Decoder]

/-- C6 (amended). For an input of 22 bytes, `gst_g729_dec_handle_frame` requests
960 bytes, hands downstream a buffer of 960 bytes, and invokes the codec
primitive exactly three times: a voice decode of bytes 0-9, a voice decode of
bytes 10-19, then a SID decode of bytes 20-21. -/
theorem C6_length_22 {Chan : Type} (env : Env Chan) (dec : GstG729Dec Chan)
    (buf omap : List guint8) (hlen : buf.length = 22)
    (ha : env.gst_audio_decoder_allocate_output_buffer 960 = some omap)
    (hsz : omap.length = 960) :
    allocations_of (gst_g729_dec_handle_frame env dec buf).trace = [960] ∧
      (gst_g729_dec_handle_frame env dec buf).outbuf.map List.length = some 960 ∧
      decodes_of (gst_g729_dec_handle_frame env dec buf).trace =
        [Event.bcg729Decoder 0 (buf.take 10) 10 false false false,
         Event.bcg729Decoder 10 ((buf.drop 10).take 10) 10 false false false,
         Event.bcg729Decoder 20 ((buf.drop 20).take 2) 2 false true false] := by
  have hb : buffer_size buf = 22 := by
    rw [buffer_size_of_lt buf (by omega), hlen]
  have hok : wrong_buffer_size (buffer_size buf) = false := by
    rw [hb]
    decide
  have hreq : requested_size (buffer_size buf) = 960 := by
    rw [hb]
    decide
  have ha2 : env.gst_audio_decoder_allocate_output_buffer (requested_size (buffer_size buf)) =
      some omap := by
    rw [hreq]
    exact ha
  refine ⟨?_, ?_, ?_⟩
  · rw [handle_frame_allocations env dec buf hok, hreq]
  · rw [handle_frame_outbuf_length env dec buf omap hok ha2, hsz]
  · rw [handle_frame_decodes env dec buf omap hok ha2, hb]
    rfl

/-- C6, an instance: 22 bytes of value 7 with the test environment. -/
theorem C6_length_22_witness :
    (List.replicate 22 (7 : guint8)).length = 22 ∧
      demo.gst_audio_decoder_allocate_output_buffer 960 = some (List.replicate 960 0) ∧
      (List.replicate 960 (0 : guint8)).length = 960 ∧
      allocations_of (gst_g729_dec_handle_frame demo ⟨0, 0⟩ (List.replicate 22 7)).trace =
        [960] ∧
      (gst_g729_dec_handle_frame demo ⟨0, 0⟩ (List.replicate 22 7)).outbuf.map List.length =
        some 960 ∧
      decodes_of (gst_g729_dec_handle_frame demo ⟨0, 0⟩ (List.replicate 22 7)).trace =
        [Event.bcg729Decoder 0 ((List.replicate 22 7).take 10) 10 false false false,
         Event.bcg729Decoder 10 (((List.replicate 22 7).drop 10).take 10) 10 false false false,
         Event.bcg729Decoder 20 (((List.replicate 22 7).drop 20).take 2) 2 false true false] :=
  ⟨by decide, rfl, List.length_replicate 960 0,
    C6_length_22 demo ⟨0, 0⟩ (List.replicate 22 7) (List.replicate 960 0) (by decide) rfl
      (List.length_replicate 960 0)⟩

/-- C6 as stated fails: for an input of 22 bytes the requested size and the
length of the output are 960, not 640, and the codec primitive is invoked three
times, not twice. -/
theorem C6_counterexample :
    (List.replicate 22 (7 : guint8)).length = 22 ∧
      allocations_of (gst_g729_dec_handle_frame demo ⟨0, 0⟩ (List.replicate 22 7)).trace =
        [960] ∧
      ((gst_g729_dec_handle_frame demo ⟨0, 0⟩ (List.replicate 22 7)).outbuf.map
        List.length) = some 960 ∧
      (decodes_of (gst_g729_dec_handle_frame demo ⟨0, 0⟩ (List.replicate 22 7)).trace).length
        = 3 := by
  refine ⟨by decide, by decide, ?_, by decide⟩
  rw [handle_frame_outbuf_length demo ⟨0, 0⟩ (List.replicate 22 7) _ (by decide) rfl,
    List.length_replicate]
  rfl

/-- C7 (amended). In the frame loop of `gst_g729_dec_handle_frame` the read cursor
advances by `G729_FRAME_BYTES = 10` bytes after every frame, whatever the length
of the frame; in a call that reaches the loop on an input of length `L < 2 ^ 32`
the cursor after the last frame is `10 * num_frames` bytes past the start of the
input, that is 10 when `L = 0`, `L + 8` when `L mod 10 = 2`, and `L` otherwise. -/
theorem C7_read_cursor {Chan : Type} (env : Env Chan) (dec : GstG729Dec Chan)
    (buf : List guint8) (hL : buf.length < 4294967296)
    (hfin : (gst_g729_dec_handle_frame env dec buf).exit = Exit.finish_frame) :
    (∀ st : Session Chan × Cursor, (loop_body env buf st).2.in_ptr = st.2.in_ptr + 10) ∧
      ∃ c, (gst_g729_dec_handle_frame env dec buf).cursor = some c ∧
        c.in_ptr = 10 * num_frames buf.length ∧
        c.in_ptr =
          if buf.length = 0 then 10
          else if buf.length % 10 = 2 then buf.length + 8 else buf.length := by
  obtain ⟨hok, omap, ha⟩ := handle_frame_reaches_loop env dec buf hfin
  have hacc := (wrong_buffer_size_eq_false _).1 hok
  rw [buffer_size_of_lt buf hL] at hacc
  refine ⟨fun st => rfl, ?_⟩
  rw [handle_frame_finish env dec buf omap hok ha]
  refine ⟨_, rfl, ?_, ?_⟩
  · rw [frame_loop_in_ptr, buffer_size_of_lt buf hL]
    simp [loop_entry]
  · rw [frame_loop_in_ptr, buffer_size_of_lt buf hL]
    simp only [loop_entry, Nat.zero_add]
    by_cases h0 : buf.length = 0
    · rw [h0]
      rfl
    · rw [if_neg h0]
      rcases hacc with h | h
      · rw [num_frames_voice _ h0 h, if_neg (by omega)]
        omega
      · rw [num_frames_sid _ hL h, if_pos h]
        omega

/-- C7, an instance: for a 12-byte input the cursor ends at offset 20. -/
theorem C7_read_cursor_witness :
    (List.replicate 12 (7 : guint8)).length < 4294967296 ∧
      (gst_g729_dec_handle_frame demo ⟨0, 0⟩ (List.replicate 12 7)).exit = Exit.finish_frame ∧
      ∃ c, (gst_g729_dec_handle_frame demo ⟨0, 0⟩ (List.replicate 12 7)).cursor = some c ∧
        c.in_ptr = 10 * num_frames (List.replicate 12 (7 : guint8)).length ∧
        c.in_ptr =
          if (List.replicate 12 (7 : guint8)).length = 0 then 10
          else if (List.replicate 12 (7 : guint8)).length % 10 = 2 then
            (List.replicate 12 (7 : guint8)).length + 8
          else (List.replicate 12 (7 : guint8)).length :=
  ⟨by decide, by decide,
    (C7_read_cursor demo ⟨0, 0⟩ (List.replicate 12 7) (by decide) (by decide)).2⟩

/-- C7 as stated fails: for a 12-byte input the second frame has length 2, yet the
read cursor after it is at offset 20, not 12. -/
theorem C7_counterexample :
    (List.replicate 12 (7 : guint8)).length = 12 ∧
      frames_of (gst_g729_dec_handle_frame demo ⟨0, 0⟩ (List.replicate 12 7)).trace =
        [(0, 10), (10, 2)] ∧
      (gst_g729_dec_handle_frame demo ⟨0, 0⟩ (List.replicate 12 7)).cursor.map Cursor.in_ptr =
        some 20 := by
  decide

/-- C8, evaluated at an input of 134217730 bytes (accepted, 13421773 frames):
the 32-bit product `num_frames * RAW_FRAME_BYTES` is 64, so 64 bytes are
requested and the buffer handed downstream has 64 bytes, while the write cursor
ends `160 * 13421773` samples (4294967360 bytes) past its start and PCM bytes
are stored outside the buffer. -/
theorem C8_failing_input :
    (List.replicate 134217730 (0 : guint8)).length % 10 = 0 ∧
      num_frames (buffer_size (List.replicate 134217730 0)) = 13421773 ∧
      allocations_of
        (gst_g729_dec_handle_frame demo ⟨0, 0⟩ (List.replicate 134217730 0)).trace = [64] ∧
      (gst_g729_dec_handle_frame demo ⟨0, 0⟩ (List.replicate 134217730 0)).outbuf.map
        List.length = some 64 ∧
      (gst_g729_dec_handle_frame demo ⟨0, 0⟩ (List.replicate 134217730 0)).cursor.map
        Cursor.out_ptr = some (160 * 13421773) ∧
      (gst_g729_dec_handle_frame demo ⟨0, 0⟩ (List.replicate 134217730 0)).overrun = true := by
  have hb : buffer_size (List.replicate 134217730 0) = 134217730 :=
    (buffer_size_replicate 134217730 0).trans (by decide)
  have hok : wrong_buffer_size (buffer_size (List.replicate 134217730 0)) = false := by
    rw [hb]
    decide
  have hreq : requested_size (buffer_size (List.replicate 134217730 0)) = 64 := by
    rw [hb]
    decide
  have ha : demo.gst_audio_decoder_allocate_output_buffer
      (requested_size (buffer_size (List.replicate 134217730 0))) =
      some (List.replicate 64 0) := by
    rw [hreq]
    rfl
  refine ⟨?_, ?_, ?_, ?_, ?_, ?_⟩
  · rw [List.length_replicate]
  · rw [hb]
    decide
  · rw [handle_frame_allocations demo ⟨0, 0⟩ _ hok, hreq]
  · rw [handle_frame_outbuf_length demo ⟨0, 0⟩ _ _ hok ha, List.length_replicate]
  · rw [handle_frame_out_ptr demo ⟨0, 0⟩ _ _ hok ha, hb]
    have hn : num_frames 134217730 = 13421773 := by decide
    rw [hn]
  · apply handle_frame_overrun demo ⟨0, 0⟩ _ _ hok ha
    · rw [hb]
      decide
    · show (List.replicate 64 (0 : guint8)).length < (List.replicate 320 (10 + 1)).length
      rw [List.length_replicate, List.length_replicate]
      decide

/-- C9, evaluated at an input of 134217730 bytes with an allocator that returns no
buffer. The input passes the size check and `num_frames` is 13421773; the call
returns `GST_FLOW_OK` without any decode and leaves the instance unchanged, but
the one request to the allocator is for 64 bytes, whereas
`num_frames * 320 = 4294967360`: the 32-bit product of line 201 has wrapped. -/
theorem C9_failing_input :
    wrong_buffer_size (buffer_size (List.replicate 134217730 0)) = false ∧
      num_frames (buffer_size (List.replicate 134217730 0)) = 13421773 ∧
      13421773 * 320 = 4294967360 ∧
      gst_g729_dec_handle_frame demo_no_memory ⟨5, 3⟩ (List.replicate 134217730 0) =
        { ret := GstFlowReturn.GST_FLOW_OK, exit := Exit.no_output_buffer, dec := ⟨5, 3⟩,
          trace := [Event.allocate_output_buffer 64], outbuf := none, cursor := none,
          overrun := false } := by
  have hb : buffer_size (List.replicate 134217730 0) = 134217730 :=
    (buffer_size_replicate 134217730 0).trans (by decide)
  have hok : wrong_buffer_size (buffer_size (List.replicate 134217730 0)) = false := by
    rw [hb]
    decide
  have hreq : requested_size (buffer_size (List.replicate 134217730 0)) = 64 := by
    rw [hb]
    decide
  refine ⟨hok, ?_, by decide, ?_⟩
  · rw [hb]
    decide
  · rw [handle_frame_no_buffer demo_no_memory ⟨5, 3⟩ _ hok rfl, hreq]

/-- C10. In every call of `gst_g729_dec_handle_frame` that reaches the frame loop,
every frame length handed to `g729_decode` is 0, 2 or 10; for each of these
lengths `g729_decode` invokes the codec primitive exactly once; the primitive
is invoked on exactly the frames handed to `g729_decode`, in the same order;
and the number of frames and the number of invocations both equal
`num_frames`. -/
theorem C10_every_frame_decoded {Chan : Type} (env : Env Chan) (dec : GstG729Dec Chan)
    (buf : List guint8)
    (hfin : (gst_g729_dec_handle_frame env dec buf).exit = Exit.finish_frame) :
    (∀ f ∈ frames_of (gst_g729_dec_handle_frame env dec buf).trace,
        f.2 = 0 ∨ f.2 = 2 ∨ f.2 = 10) ∧
      (∀ (s : Session Chan) (p len q : Nat), len = 0 ∨ len = 2 ∨ len = 10 →
        (decodes_of (g729_decode env s buf p len q).1.trace).length =
          (decodes_of s.trace).length + 1) ∧
      decoded_frames (gst_g729_dec_handle_frame env dec buf).trace =
        frames_of (gst_g729_dec_handle_frame env dec buf).trace ∧
      (frames_of (gst_g729_dec_handle_frame env dec buf).trace).length =
        num_frames (buffer_size buf) ∧
      (decodes_of (gst_g729_dec_handle_frame env dec buf).trace).length =
        num_frames (buffer_size buf) := by
  obtain ⟨hok, omap, ha⟩ := handle_frame_reaches_loop env dec buf hfin
  have hacc := (wrong_buffer_size_eq_false _).1 hok
  have hfr := handle_frame_frames env dec buf omap hok ha
  have hde := handle_frame_decodes env dec buf omap hok ha
  have hnf := num_frames_eq _ (buffer_size_lt buf) hacc
  refine ⟨handle_frame_frame_lengths env dec buf omap hok ha, ?_, ?_, ?_, ?_⟩
  · intro s p len q hlen
    rw [g729_decode_decodes, List.length_append]
    rcases hlen with h | h | h <;> subst h <;> rfl
  · rw [← decoded_frames_decodes_of, hde, hfr, decoded_frames_append, decoded_frames_map_voice]
    split_ifs <;> rfl
  · rw [hfr, hnf, List.length_append, List.length_map, List.length_range]
    split_ifs <;> rfl
  · rw [hde, hnf, List.length_append, List.length_map, List.length_range]
    split_ifs <;> rfl

/-- C10, an instance: a 12-byte input gives two frames and two invocations. -/
theorem C10_every_frame_decoded_witness :
    (gst_g729_dec_handle_frame demo ⟨0, 0⟩ (List.replicate 12 7)).exit = Exit.finish_frame ∧
      frames_of (gst_g729_dec_handle_frame demo ⟨0, 0⟩ (List.replicate 12 7)).trace =
        [(0, 10), (10, 2)] ∧
      (decodes_of (gst_g729_dec_handle_frame demo ⟨0, 0⟩ (List.replicate 12 7)).trace).length =
        num_frames (buffer_size (List.replicate 12 7)) :=
  ⟨by decide, by decide,
    (C10_every_frame_decoded demo ⟨0, 0⟩ (List.replicate 12 7) (by decide)).2.2.2.2⟩

/-- C11, evaluated at an input of 134217730 bytes: the length fits the `guint`
variable `size` and passes the size check, `num_frames` is 13421773, and the
size passed to the allocator is 64, whereas `13421773 * 320 = 4294967360`: the
32-bit product `num_frames * RAW_FRAME_BYTES` has wrapped. -/
theorem C11_failing_input :
    (List.replicate 134217730 (0 : guint8)).length < 4294967296 ∧
      (gst_g729_dec_handle_frame demo_no_memory ⟨0, 0⟩ (List.replicate 134217730 0)).exit ≠
        Exit.wrong_buffer_size ∧
      num_frames (buffer_size (List.replicate 134217730 0)) = 13421773 ∧
      allocations_of
        (gst_g729_dec_handle_frame demo_no_memory ⟨0, 0⟩
          (List.replicate 134217730 0)).trace = [64] ∧
      13421773 * 320 = 4294967360 := by
  have hb : buffer_size (List.replicate 134217730 0) = 134217730 :=
    (buffer_size_replicate 134217730 0).trans (by decide)
  have hok : wrong_buffer_size (buffer_size (List.replicate 134217730 0)) = false := by
    rw [hb]
    decide
  refine ⟨?_, ?_, ?_, ?_, by decide⟩
  · rw [List.length_replicate]
    decide
  · rw [Ne, handle_frame_exit, hok]
    decide
  · rw [hb]
    decide
  · rw [handle_frame_allocations demo_no_memory ⟨0, 0⟩ _ hok, hb]
    decide

/-- C12. For any two calls of `gst_g729_dec_handle_frame` with the same services
whose inputs have the same length, whatever the input bytes and the instance
states (channel context, `vad`) are: both calls leave through the same `return`
statement (in particular both are rejected or neither is), `num_frames` is the
same, the same output size is requested, and the same sequence of
`(offset, length)` frames is handed to `g729_decode`. -/
theorem C12_classification_by_length {Chan : Type} (env : Env Chan)
    (dec1 dec2 : GstG729Dec Chan) (buf1 buf2 : List guint8)
    (hlen : buf1.length = buf2.length) :
    (gst_g729_dec_handle_frame env dec1 buf1).exit =
        (gst_g729_dec_handle_frame env dec2 buf2).exit ∧
      num_frames (buffer_size buf1) = num_frames (buffer_size buf2) ∧
      allocations_of (gst_g729_dec_handle_frame env dec1 buf1).trace =
        allocations_of (gst_g729_dec_handle_frame env dec2 buf2).trace ∧
      frames_of (gst_g729_dec_handle_frame env dec1 buf1).trace =
        frames_of (gst_g729_dec_handle_frame env dec2 buf2).trace := by
  have hb : buffer_size buf1 = buffer_size buf2 := by
    unfold buffer_size
    rw [hlen]
  refine ⟨?_, by rw [hb], ?_⟩
  · cases h : wrong_buffer_size (buffer_size buf2) with
    | true =>
      rw [handle_frame_wrong env dec1 buf1 (hb ▸ h), handle_frame_wrong env dec2 buf2 h]
    | false =>
      cases ha : env.gst_audio_decoder_allocate_output_buffer
          (requested_size (buffer_size buf2)) with
      | none =>
        rw [handle_frame_no_buffer env dec1 buf1 (hb ▸ h) (hb ▸ ha),
          handle_frame_no_buffer env dec2 buf2 h ha]
      | some omap =>
        rw [handle_frame_finish env dec1 buf1 omap (hb ▸ h) (hb ▸ ha),
          handle_frame_finish env dec2 buf2 omap h ha]
  · cases h : wrong_buffer_size (buffer_size buf2) with
    | true =>
      rw [handle_frame_wrong env dec1 buf1 (hb ▸ h), handle_frame_wrong env dec2 buf2 h]
      exact ⟨rfl, rfl⟩
    | false =>
      refine ⟨?_, ?_⟩
      · rw [handle_frame_allocations env dec1 buf1 (hb ▸ h),
          handle_frame_allocations env dec2 buf2 h, hb]
      · cases ha : env.gst_audio_decoder_allocate_output_buffer
            (requested_size (buffer_size buf2)) with
        | none =>
          rw [handle_frame_no_buffer env dec1 buf1 (hb ▸ h) (hb ▸ ha),
            handle_frame_no_buffer env dec2 buf2 h ha, hb]
        | some omap =>
          rw [handle_frame_frames env dec1 buf1 omap (hb ▸ h) (hb ▸ ha),
            handle_frame_frames env dec2 buf2 omap h ha, hb]

/-- C12, an instance: two 12-byte inputs with different bytes and different
instance states give the same frames. -/
theorem C12_classification_by_length_witness :
    (List.replicate 12 (7 : guint8)).length = (List.replicate 12 (9 : guint8)).length ∧
      (gst_g729_dec_handle_frame demo ⟨0, 0⟩ (List.replicate 12 7)).exit =
        (gst_g729_dec_handle_frame demo ⟨1, 5⟩ (List.replicate 12 9)).exit ∧
      frames_of (gst_g729_dec_handle_frame demo ⟨0, 0⟩ (List.replicate 12 7)).trace =
        frames_of (gst_g729_dec_handle_frame demo ⟨1, 5⟩ (List.replicate 12 9)).trace :=
  ⟨by decide,
    (C12_classification_by_length demo ⟨0, 0⟩ ⟨1, 5⟩ (List.replicate 12 7)
      (List.replicate 12 9) (by decide)).1,
    (C12_classification_by_length demo ⟨0, 0⟩ ⟨1, 5⟩ (List.replicate 12 7)
      (List.replicate 12 9) (by decide)).2.2.2⟩

/-- C13, evaluated at two sequences that start with `gst_g729_dec_init`.
`gst_g729_dec_stop` hands the channel to `closeBcg729DecoderChannel` and keeps the
pointer in `dec->dec`. A following call of `gst_g729_dec_handle_frame` on 10
bytes reaches the frame loop and invokes the codec primitive once, on that
closed channel; a second `gst_g729_dec_stop` closes the channel again. -/
theorem C13_failing_input :
    (gst_g729_dec_stop (gst_g729_dec_init (0 : Nat))).1.dec.dec =
        (gst_g729_dec_init (0 : Nat)).dec.dec ∧
      (gst_g729_dec_stop (gst_g729_dec_init (0 : Nat))).1.is_open = false ∧
      (gst_g729_dec_handle_frame demo (gst_g729_dec_stop (gst_g729_dec_init 0)).1.dec
        (List.replicate 10 7)).exit = Exit.finish_frame ∧
      decodes_of (gst_g729_dec_handle_frame demo (gst_g729_dec_stop (gst_g729_dec_init 0)).1.dec
        (List.replicate 10 7)).trace =
        [Event.bcg729Decoder 0 (List.replicate 10 7) 10 false false false] ∧
      (run_calls demo [Call.stop, Call.handle_frame (List.replicate 10 7)]
        (gst_g729_dec_init 0)).uses =
        [ChannelUse.init, ChannelUse.close true, ChannelUse.decode false] ∧
      (run_calls demo [Call.stop, Call.stop] (gst_g729_dec_init 0)).uses =
        [ChannelUse.init, ChannelUse.close true, ChannelUse.close false] ∧
      close_count (run_calls demo [Call.stop, Call.stop] (gst_g729_dec_init 0)).uses = 2 := by
  decide

/-- C14 (amended). In every call of `gst_g729_dec_handle_frame` that reaches the
frame loop, every frame `(offset, len)` handed to `g729_decode` satisfies
`offset + len ≤ L`, so no byte outside the input is designated. If moreover
`L < 2 ^ 32`, the frames tile the input: there are `num_frames` of them, the
first starts at 0, each next one starts where the previous one ends, the last
one ends at `L`, and the lengths sum to `L`. -/
theorem C14_frames_tile {Chan : Type} (env : Env Chan) (dec : GstG729Dec Chan)
    (buf : List guint8)
    (hfin : (gst_g729_dec_handle_frame env dec buf).exit = Exit.finish_frame) :
    (∀ f ∈ frames_of (gst_g729_dec_handle_frame env dec buf).trace,
        f.1 + f.2 ≤ buf.length) ∧
      (buf.length < 4294967296 →
        (frames_of (gst_g729_dec_handle_frame env dec buf).trace).length =
            num_frames buf.length ∧
          (∀ f, (frames_of (gst_g729_dec_handle_frame env dec buf).trace)[0]? = some f →
            f.1 = 0) ∧
          (∀ i f g, (frames_of (gst_g729_dec_handle_frame env dec buf).trace)[i]? = some f →
            (frames_of (gst_g729_dec_handle_frame env dec buf).trace)[i + 1]? = some g →
            g.1 = f.1 + f.2) ∧
          (∀ f, (frames_of (gst_g729_dec_handle_frame env dec buf).trace)[
              num_frames buf.length - 1]? = some f → f.1 + f.2 = buf.length) ∧
          ((frames_of (gst_g729_dec_handle_frame env dec buf).trace).map Prod.snd).sum =
            buf.length) := by
  obtain ⟨hok, omap, ha⟩ := handle_frame_reaches_loop env dec buf hfin
  refine ⟨?_, ?_⟩
  · intro f hf
    exact Nat.le_trans (handle_frame_frame_bound env dec buf omap hok ha f hf)
      (buffer_size_le buf)
  · intro hL
    have hb := buffer_size_of_lt buf hL
    have hacc := (wrong_buffer_size_eq_false _).1 hok
    rw [hb] at hacc
    have hnf := num_frames_eq _ hL hacc
    refine ⟨?_, ?_, ?_, ?_, ?_⟩
    · rw [handle_frame_frames_length env dec buf omap hok ha, hb]
    · intro f hf
      have := handle_frame_frame_at env dec buf omap hL hok ha 0 f hf
      omega
    · intro i f g hf hg
      have h1 := handle_frame_frame_at env dec buf omap hL hok ha i f hf
      have h2 := handle_frame_frame_at env dec buf omap hL hok ha (i + 1) g hg
      split_ifs at hnf <;> omega
    · intro f hf
      have h1 := handle_frame_frame_at env dec buf omap hL hok ha _ f hf
      split_ifs at hnf <;> omega
    · rw [handle_frame_frames_sum env dec buf omap hok ha, hb]

/-- C14, an instance: a 12-byte input; its frames `(0, 10)` and `(10, 2)` tile it. -/
theorem C14_frames_tile_witness :
    (gst_g729_dec_handle_frame demo ⟨0, 0⟩ (List.replicate 12 7)).exit = Exit.finish_frame ∧
      (List.replicate 12 (7 : guint8)).length < 4294967296 ∧
      (∀ f ∈ frames_of (gst_g729_dec_handle_frame demo ⟨0, 0⟩ (List.replicate 12 7)).trace,
        f.1 + f.2 ≤ (List.replicate 12 (7 : guint8)).length) ∧
      ((frames_of (gst_g729_dec_handle_frame demo ⟨0, 0⟩ (List.replicate 12 7)).trace).map
        Prod.snd).sum = (List.replicate 12 (7 : guint8)).length :=
  ⟨by decide, by decide,
    (C14_frames_tile demo ⟨0, 0⟩ (List.replicate 12 7) (by decide)).1,
    ((C14_frames_tile demo ⟨0, 0⟩ (List.replicate 12 7) (by decide)).2 (by decide)).2.2.2.2⟩

/-- C14 as stated fails beyond the 32-bit range of `size`: an input of 4294967306
bytes is accepted (`size` is 10) and gives the single frame `(0, 10)`, which ends
at offset 10, not at the end of the input. -/
theorem C14_counterexample :
    (List.replicate 4294967306 (0 : guint8)).length = 4294967306 ∧
      (gst_g729_dec_handle_frame demo ⟨0, 0⟩ (List.replicate 4294967306 0)).exit =
        Exit.finish_frame ∧
      frames_of (gst_g729_dec_handle_frame demo ⟨0, 0⟩ (List.replicate 4294967306 0)).trace =
        [(0, 10)] := by
  have hb : buffer_size (List.replicate 4294967306 0) = 10 :=
    (buffer_size_replicate 4294967306 0).trans (by decide)
  have hok : wrong_buffer_size (buffer_size (List.replicate 4294967306 0)) = false := by
    rw [hb]
    decide
  refine ⟨List.length_replicate _ _, ?_, ?_⟩
  · rw [handle_frame_finish demo ⟨0, 0⟩ _ _ hok rfl]
  · rw [handle_frame_frames demo ⟨0, 0⟩ _ _ hok rfl, hb]
    rfl

/-- C15. For every input length `L < 2 ^ 32` with `L mod 10 ∈ {0, 2}` and every
iteration `i < num_frames` of the frame loop entered as in
`gst_g729_dec_handle_frame`: `10 * i ≤ L` and the value of `size` at the start of
iteration `i` is exactly `L - 10 * i`; that value is below 10, so that
`size -= 10` wraps, only when `i` is the last iteration and the last frame has 0
or 2 bytes. After the last iteration `size` is `2 ^ 32 - 8`, `2 ^ 32 - 10` or 0,
and the loop body, the only reader of `size`, is not run again. -/
theorem C15_size_counter {Chan : Type} (env : Env Chan) (dec : GstG729Dec Chan)
    (buf omap : List guint8) (hL : buf.length < 4294967296)
    (hacc : buf.length % 10 = 0 ∨ buf.length % 10 = 2) :
    (∀ i, i < num_frames buf.length →
        10 * i ≤ buf.length ∧
          (frame_loop env buf i (loop_entry dec buf omap)).2.size = buf.length - 10 * i ∧
          ((frame_loop env buf i (loop_entry dec buf omap)).2.size < 10 ↔
            (i + 1 = num_frames buf.length ∧ (buf.length % 10 = 2 ∨ buf.length = 0)))) ∧
      (frame_loop env buf (num_frames buf.length) (loop_entry dec buf omap)).2.size =
        (if buf.length % 10 = 2 then 4294967288
         else if buf.length = 0 then 4294967286 else 0) ∧
      (env.gst_audio_decoder_allocate_output_buffer (requested_size (buffer_size buf)) =
          some omap →
        (gst_g729_dec_handle_frame env dec buf).cursor =
          some (frame_loop env buf (num_frames buf.length) (loop_entry dec buf omap)).2) := by
  have hb := buffer_size_of_lt buf hL
  have hnf := num_frames_eq _ hL hacc
  have hentry : (loop_entry dec buf omap).2.size = buf.length := hb
  refine ⟨?_, ?_, ?_⟩
  · intro i hi
    have h10 : 10 * i ≤ buf.length := by
      split_ifs at hnf <;> omega
    have hs := frame_loop_size env buf i (loop_entry dec buf omap)
      (by rw [hentry]; exact hL) (by rw [hentry]; exact h10)
    rw [hentry] at hs
    refine ⟨h10, hs, ?_⟩
    rw [hs]
    split_ifs at hnf <;> omega
  · have := frame_loop_final_size env buf (loop_entry dec buf omap)
      (by rw [hentry]; exact hL) (by rw [hentry]; exact hacc)
    rw [hentry] at this
    exact this
  · intro ha
    have hok : wrong_buffer_size (buffer_size buf) = false := by
      rw [hb]
      exact (wrong_buffer_size_eq_false _).2 hacc
    rw [handle_frame_finish env dec buf omap hok ha, hb]

/-- C15, an instance: a 12-byte input; `size` is 12 and then 2 at the start of the
two iterations and `2 ^ 32 - 8` after the loop. -/
theorem C15_size_counter_witness :
    (List.replicate 12 (7 : guint8)).length < 4294967296 ∧
      ((List.replicate 12 (7 : guint8)).length % 10 = 0 ∨
        (List.replicate 12 (7 : guint8)).length % 10 = 2) ∧
      (frame_loop demo (List.replicate 12 7)
          (num_frames (List.replicate 12 (7 : guint8)).length)
          (loop_entry ⟨0, 0⟩ (List.replicate 12 7) (List.replicate 640 0))).2.size =
        (if (List.replicate 12 (7 : guint8)).length % 10 = 2 then 4294967288
         else if (List.replicate 12 (7 : guint8)).length = 0 then 4294967286 else 0) :=
  ⟨by decide, by decide,
    (C15_size_counter demo ⟨0, 0⟩ (List.replicate 12 7) (List.replicate 640 0) (by decide)
      (by decide)).2.1⟩

/-- C16 (amended). Let the allocator always return a buffer of the requested length
and let the codec primitive store 320 bytes per call. For every instance state,
every input `A` of length `10 * a` with `a ≥ 1` and every input `B` with
`|B| > 0`, `|B| mod 10 ∈ {0, 2}` and `|A| + |B| ≤ 134217720`: one call of
`gst_g729_dec_handle_frame` on `A ++ B` hands downstream `out(A) ++ out(B)` and
leaves the same instance state (channel context and `vad`) as a call on `A`
followed by a call on `B`. -/
theorem C16_split_at_frame_boundary {Chan : Type} (env : Env Chan) (s : GstG729Dec Chan)
    (A B : List guint8) (a : Nat)
    (halloc : ∀ n, ∃ omap, env.gst_audio_decoder_allocate_output_buffer n = some omap ∧
      omap.length = n)
    (hblk : ∀ c bs n e sid r, (env.bcg729Decoder c bs n e sid r).2.length = 320)
    (hA : A.length = 10 * a) (ha : 1 ≤ a)
    (hB : B.length % 10 = 0 ∨ B.length % 10 = 2) (hB0 : 0 < B.length)
    (hle : A.length + B.length ≤ 134217720) :
    ∃ out1 out2,
      (gst_g729_dec_handle_frame env s A).outbuf = some out1 ∧
        (gst_g729_dec_handle_frame env (gst_g729_dec_handle_frame env s A).dec B).outbuf =
          some out2 ∧
        (gst_g729_dec_handle_frame env s (A ++ B)).outbuf = some (out1 ++ out2) ∧
        (gst_g729_dec_handle_frame env s (A ++ B)).dec =
          (gst_g729_dec_handle_frame env (gst_g729_dec_handle_frame env s A).dec B).dec := by
  have oA := handle_frame_output env s A halloc hblk (by omega) (by omega)
  have oB := handle_frame_output env (gst_g729_dec_handle_frame env s A).dec B halloc hblk hB
    (by omega)
  have oAB := handle_frame_output env s (A ++ B) halloc hblk
    (by rw [List.length_append]; omega) (by rw [List.length_append]; omega)
  have hfr : accepted_frames (A ++ B).length =
      accepted_frames A.length ++
        (accepted_frames B.length).map (fun f => (A.length + f.1, f.2)) := by
    rw [List.length_append, hA]
    exact accepted_frames_append a B.length ha hB0
  rw [hfr, decode_chain_append, decode_chain_right,
    decode_chain_left env A B _ _ (accepted_frames_bound A.length)] at oAB
  rw [oA.2] at oB
  refine ⟨(decode_chain env A (accepted_frames A.length) s.dec).2,
    (decode_chain env B (accepted_frames B.length)
      (decode_chain env A (accepted_frames A.length) s.dec).1).2, oA.1, ?_, oAB.1, ?_⟩
  · rw [oA.2]
    exact oB.1
  · rw [oAB.2, oA.2, oB.2]

/-- C16, an instance: `A` is ten bytes of value 1, `B` is two bytes of value 2. -/
theorem C16_split_at_frame_boundary_witness :
    (∀ n, ∃ omap, demo.gst_audio_decoder_allocate_output_buffer n = some omap ∧
        omap.length = n) ∧
      (∀ c bs n e sid r, (demo.bcg729Decoder c bs n e sid r).2.length = 320) ∧
      (List.replicate 10 (1 : guint8)).length = 10 * 1 ∧
      ((List.replicate 2 (2 : guint8)).length % 10 = 0 ∨
        (List.replicate 2 (2 : guint8)).length % 10 = 2) ∧
      0 < (List.replicate 2 (2 : guint8)).length ∧
      (List.replicate 10 (1 : guint8)).length + (List.replicate 2 (2 : guint8)).length ≤
        134217720 ∧
      ∃ out1 out2,
        (gst_g729_dec_handle_frame demo ⟨0, 0⟩ (List.replicate 10 1)).outbuf = some out1 ∧
          (gst_g729_dec_handle_frame demo
            (gst_g729_dec_handle_frame demo ⟨0, 0⟩ (List.replicate 10 1)).dec
            (List.replicate 2 2)).outbuf = some out2 ∧
          (gst_g729_dec_handle_frame demo ⟨0, 0⟩
            (List.replicate 10 1 ++ List.replicate 2 2)).outbuf = some (out1 ++ out2) ∧
          (gst_g729_dec_handle_frame demo ⟨0, 0⟩
            (List.replicate 10 1 ++ List.replicate 2 2)).dec =
            (gst_g729_dec_handle_frame demo
              (gst_g729_dec_handle_frame demo ⟨0, 0⟩ (List.replicate 10 1)).dec
              (List.replicate 2 2)).dec :=
  ⟨fun n => ⟨List.replicate n 0, rfl, List.length_replicate n 0⟩,
    fun _ _ n _ _ _ => List.length_replicate 320 (n + 1),
    by decide, by decide, by decide, by decide,
    C16_split_at_frame_boundary demo ⟨0, 0⟩ (List.replicate 10 1) (List.replicate 2 2) 1
      (fun n => ⟨List.replicate n 0, rfl, List.length_replicate n 0⟩)
      (fun _ _ n _ _ _ => List.length_replicate 320 (n + 1))
      (by decide) (by decide) (by decide) (by decide) (by decide)⟩

/-- C16 as stated fails for long inputs. With `A` of 134217720 bytes and `B` of 10
bytes, the two calls hand downstream 4294967040 and 320 bytes, the single call
on `A ++ B` only 64 (the 32-bit product `num_frames * RAW_FRAME_BYTES` wraps).
With `A` of 4294967290 bytes and `B` of 10 bytes, the single call on `A ++ B` is
rejected (`size` is 4) and hands nothing downstream, while the call on `B` hands
320 bytes downstream. -/
theorem C16_counterexample :
    ((List.replicate 134217720 (0 : guint8)).length = 10 * 13421772 ∧
      (gst_g729_dec_handle_frame demo ⟨0, 0⟩ (List.replicate 134217720 0)).outbuf.map
        List.length = some 4294967040 ∧
      (gst_g729_dec_handle_frame demo
        (gst_g729_dec_handle_frame demo ⟨0, 0⟩ (List.replicate 134217720 0)).dec
        (List.replicate 10 0)).outbuf.map List.length = some 320 ∧
      (gst_g729_dec_handle_frame demo ⟨0, 0⟩
        (List.replicate 134217720 0 ++ List.replicate 10 0)).outbuf.map List.length =
        some 64) ∧
    ((List.replicate 4294967290 (0 : guint8)).length = 10 * 429496729 ∧
      (gst_g729_dec_handle_frame demo
        (gst_g729_dec_handle_frame demo ⟨0, 0⟩ (List.replicate 4294967290 0)).dec
        (List.replicate 10 0)).outbuf.map List.length = some 320 ∧
      (gst_g729_dec_handle_frame demo ⟨0, 0⟩
        (List.replicate 4294967290 0 ++ List.replicate 10 0)).outbuf = none) := by
  have hbA : buffer_size (List.replicate 134217720 0) = 134217720 :=
    (buffer_size_replicate 134217720 0).trans (by decide)
  have hbB : buffer_size (List.replicate 10 0) = 10 :=
    (buffer_size_replicate 10 0).trans (by decide)
  have hbAB : buffer_size (List.replicate 134217720 0 ++ List.replicate 10 0) = 134217730 :=
    (buffer_size_replicate_append 134217720 10 0 0).trans (by decide)
  have hbAB2 : buffer_size (List.replicate 4294967290 0 ++ List.replicate 10 0) = 4 :=
    (buffer_size_replicate_append 4294967290 10 0 0).trans (by decide)
  have hokB : wrong_buffer_size (buffer_size (List.replicate 10 0)) = false := by
    rw [hbB]
    decide
  have hreqB : requested_size (buffer_size (List.replicate 10 0)) = 320 := by
    rw [hbB]
    decide
  have hB : ∀ d : GstG729Dec Nat,
      (gst_g729_dec_handle_frame demo d (List.replicate 10 0)).outbuf.map List.length =
        some 320 := by
    intro d
    rw [handle_frame_outbuf_length demo d _ _ hokB rfl, List.length_replicate, hreqB]
  refine ⟨⟨List.length_replicate _ _, ?_, hB _, ?_⟩, List.length_replicate _ _, hB _, ?_⟩
  · rw [handle_frame_outbuf_length demo ⟨0, 0⟩ _ _ (by rw [hbA]; decide) rfl,
      List.length_replicate, hbA]
    decide
  · rw [handle_frame_outbuf_length demo ⟨0, 0⟩ _ _ (by rw [hbAB]; decide) rfl,
      List.length_replicate, hbAB]
    decide
  · rw [handle_frame_wrong demo ⟨0, 0⟩ _ (by rw [hbAB2]; decide)]

/-- C17 (amended). For every input length `L < 2 ^ 32` with `L mod 10 ∈ {0, 2}`:
`num_frames` is at least 1; it is 1 exactly when `L` is 0, 2 or 10; a call that
reaches the frame loop invokes the codec primitive at least once; and if
`L ≤ 134217720` the requested output size is `num_frames * 320`, a positive
multiple of 320. -/
theorem C17_num_frames_positive {Chan : Type} (env : Env Chan) (dec : GstG729Dec Chan)
    (buf : List guint8) (hL : buf.length < 4294967296)
    (hacc : buf.length % 10 = 0 ∨ buf.length % 10 = 2) :
    1 ≤ num_frames buf.length ∧
      (num_frames buf.length = 1 ↔ buf.length = 0 ∨ buf.length = 2 ∨ buf.length = 10) ∧
      ((gst_g729_dec_handle_frame env dec buf).exit = Exit.finish_frame →
        1 ≤ (decodes_of (gst_g729_dec_handle_frame env dec buf).trace).length) ∧
      (buf.length ≤ 134217720 →
        allocations_of (gst_g729_dec_handle_frame env dec buf).trace =
            [num_frames buf.length * 320] ∧
          0 < num_frames buf.length * 320 ∧ (num_frames buf.length * 320) % 320 = 0) := by
  have hb := buffer_size_of_lt buf hL
  have hok : wrong_buffer_size (buffer_size buf) = false := by
    rw [hb]
    exact (wrong_buffer_size_eq_false _).2 hacc
  have hpos := num_frames_pos _ hL hacc
  refine ⟨hpos, num_frames_eq_one _ hL hacc, ?_, ?_⟩
  · intro hfin
    obtain ⟨_, omap, ha⟩ := handle_frame_reaches_loop env dec buf hfin
    rw [handle_frame_decodes_length env dec buf omap hok ha, hb]
    exact hpos
  · intro hle
    refine ⟨?_, by omega, Nat.mul_mod_left _ _⟩
    rw [handle_frame_allocations env dec buf hok, hb]
    have hnf := num_frames_eq _ hL hacc
    unfold requested_size
    simp only [RAW_FRAME_BYTES, GUINT_RANGE]
    rw [Nat.mod_eq_of_lt]
    split_ifs at hnf <;> omega

/-- C17, an instance: a 12-byte input has two frames and 640 bytes are requested. -/
theorem C17_num_frames_positive_witness :
    (List.replicate 12 (7 : guint8)).length < 4294967296 ∧
      ((List.replicate 12 (7 : guint8)).length % 10 = 0 ∨
        (List.replicate 12 (7 : guint8)).length % 10 = 2) ∧
      (List.replicate 12 (7 : guint8)).length ≤ 134217720 ∧
      1 ≤ num_frames (List.replicate 12 (7 : guint8)).length ∧
      allocations_of (gst_g729_dec_handle_frame demo ⟨0, 0⟩ (List.replicate 12 7)).trace =
        [num_frames (List.replicate 12 (7 : guint8)).length * 320] :=
  ⟨by decide, by decide, by decide,
    (C17_num_frames_positive demo ⟨0, 0⟩ (List.replicate 12 7) (by decide) (by decide)).1,
    ((C17_num_frames_positive demo ⟨0, 0⟩ (List.replicate 12 7) (by decide)
      (by decide)).2.2.2 (by decide)).1⟩

/-- C17 as stated fails in two places. An input of 134217730 bytes (remainder 0) is
accepted and 64 bytes are requested, which is not a multiple of 320. An input of
21474836490 bytes (remainder 0) is accepted with `size = 10` and `num_frames = 1`,
although its length is none of 0, 2 and 10. -/
theorem C17_counterexample :
    ((List.replicate 134217730 (0 : guint8)).length % 10 = 0 ∧
      allocations_of
        (gst_g729_dec_handle_frame demo ⟨0, 0⟩ (List.replicate 134217730 0)).trace = [64] ∧
      64 % 320 ≠ 0) ∧
    ((List.replicate 21474836490 (0 : guint8)).length % 10 = 0 ∧
      (gst_g729_dec_handle_frame demo ⟨0, 0⟩ (List.replicate 21474836490 0)).exit ≠
        Exit.wrong_buffer_size ∧
      num_frames (buffer_size (List.replicate 21474836490 0)) = 1 ∧
      (List.replicate 21474836490 (0 : guint8)).length ≠ 10) := by
  have hb : buffer_size (List.replicate 134217730 0) = 134217730 :=
    (buffer_size_replicate 134217730 0).trans (by decide)
  have hb2 : buffer_size (List.replicate 21474836490 0) = 10 :=
    (buffer_size_replicate 21474836490 0).trans (by decide)
  refine ⟨⟨?_, ?_, by decide⟩, ?_, ?_, ?_, ?_⟩
  · rw [List.length_replicate]
  · rw [handle_frame_allocations demo ⟨0, 0⟩ _ (by rw [hb]; decide), hb]
    decide
  · rw [List.length_replicate]
  · rw [Ne, handle_frame_exit, hb2]
    decide
  · rw [hb2]
    decide
  · rw [List.length_replicate]
    decide

/-- C18. `g729_decode` returns `RAW_FRAME_BYTES = 320` for every frame length; for a
length other than 0, 2 and 10 it does not invoke the codec primitive and leaves
the output buffer, the overrun flag and the instance (channel context and
`vad`) as they were. -/
theorem C18_decode_returns_320 {Chan : Type} (env : Env Chan) (s : Session Chan)
    (imap : List guint8) (p len q : Nat) :
    (g729_decode env s imap p len q).2 = 320 ∧
      (len ≠ 0 → len ≠ 2 → len ≠ 10 →
        decodes_of (g729_decode env s imap p len q).1.trace = decodes_of s.trace ∧
          (g729_decode env s imap p len q).1.trace =
            s.trace ++ [Event.g729_decode p len q] ∧
          (g729_decode env s imap p len q).1.omap = s.omap ∧
          (g729_decode env s imap p len q).1.overrun = s.overrun ∧
          (g729_decode env s imap p len q).1.dec = s.dec) := by
  refine ⟨rfl, ?_⟩
  intro h0 h2 h10
  rw [g729_decode_decodes, if_neg h2, if_neg h0, if_neg h10, List.append_nil]
  unfold g729_decode
  simp only [G729_SID_BYTES, G729_SILENCE_BYTES, G729_FRAME_BYTES, if_neg h2, if_neg h0,
    if_neg h10]
  simp

/-- C18, an instance: a frame length of 5. -/
theorem C18_decode_returns_320_witness :
    (5 : Nat) ≠ 0 ∧ (5 : Nat) ≠ 2 ∧ (5 : Nat) ≠ 10 ∧
      (g729_decode demo ⟨⟨0, 3⟩, [1, 2], false, []⟩ [4, 4, 4, 4, 4] 0 5 0).2 = 320 ∧
      decodes_of (g729_decode demo ⟨⟨0, 3⟩, [1, 2], false, []⟩ [4, 4, 4, 4, 4] 0 5 0).1.trace =
        decodes_of [] ∧
      (g729_decode demo ⟨⟨0, 3⟩, [1, 2], false, []⟩ [4, 4, 4, 4, 4] 0 5 0).1.omap = [1, 2] ∧
      (g729_decode demo ⟨⟨0, 3⟩, [1, 2], false, []⟩ [4, 4, 4, 4, 4] 0 5 0).1.dec = ⟨0, 3⟩ :=
  ⟨by decide, by decide, by decide,
    (C18_decode_returns_320 demo ⟨⟨0, 3⟩, [1, 2], false, []⟩ [4, 4, 4, 4, 4] 0 5 0).1,
    ((C18_decode_returns_320 demo ⟨⟨0, 3⟩, [1, 2], false, []⟩ [4, 4, 4, 4, 4] 0 5 0).2
      (by decide) (by decide) (by decide)).1,
    ((C18_decode_returns_320 demo ⟨⟨0, 3⟩, [1, 2], false, []⟩ [4, 4, 4, 4, 4] 0 5 0).2
      (by decide) (by decide) (by decide)).2.2.1,
    ((C18_decode_returns_320 demo ⟨⟨0, 3⟩, [1, 2], false, []⟩ [4, 4, 4, 4, 4] 0 5 0).2
      (by decide) (by decide) (by decide)).2.2.2.2⟩

end G729
